import Mathlib

/-!
Shallow embedding of the parameter-resolution core of the SQL statement
compiler: `lib/sqlalchemy/sql/crud.py` (column classification for INSERT and
UPDATE statements) and `lib/sqlalchemy/dialects/postgresql/on_conflict.py`
(the ON CONFLICT clause builder).  Definitions are translated from the source;
theorems check the specification's claims against them.
-/

deriving instance DecidableEq for Except

namespace SA

/-! ### Association-list dictionary operations

Python dicts preserve insertion order; assignment overwrites in place,
`setdefault` appends when the key is absent, `pop` removes the entry. -/

def alookup {α β : Type} [DecidableEq α] (k : α) : List (α × β) → Option β
  | [] => none
  | p :: ps => if p.1 = k then some p.2 else alookup k ps

def aremove {α β : Type} [DecidableEq α] (k : α) : List (α × β) → List (α × β)
  | [] => []
  | p :: ps => if p.1 = k then ps else p :: aremove k ps

/-- Python `d.setdefault(k, v)`: insert only when the key is absent. -/
def asetdefault {α β : Type} [DecidableEq α] (k : α) (v : β) (d : List (α × β)) :
    List (α × β) :=
  if (alookup k d).isSome then d else d ++ [(k, v)]

/-- Python `d[k] = v`: overwrite in place, preserving position, else append. -/
def ainsert {α β : Type} [DecidableEq α] (k : α) (v : β) (d : List (α × β)) :
    List (α × β) :=
  if (alookup k d).isSome then d.map (fun p => if p.1 = k then (k, v) else p)
  else d ++ [(k, v)]

/-! ### Data model for crud.py -/

/-- A clause-element value supplied for a column: either a bind parameter
(whose type may be unset, `type._isnull`) or some other SQL expression. -/
inductive Clause : Type where
  | bindp (isnull : Bool) (id : Nat)
  | expr (id : Nat)
deriving DecidableEq, Repr

/-- A value attached to a parameter key: a plain literal, the REQUIRED
sentinel (`util.symbol('REQUIRED')`, which `_is_literal` treats as a
literal), or a clause element. -/
inductive Value : Type where
  | lit (n : Int)
  | required
  | clause (c : Clause)
deriving DecidableEq, Repr

/-- `elements._is_literal`: anything that is not a ClauseElement. -/
def isLiteral : Value → Bool
  | .lit _ => true
  | .required => true
  | .clause _ => false

/-- A column default / onupdate object: `is_sequence`, `is_clause_element`,
or a plain client-side value / callable. -/
inductive DefaultSpec : Type where
  | sequence (optional : Bool)
  | clauseElem (arg : Nat)
  | clientSide
deriving DecidableEq, Repr

structure Column : Type where
  table : String
  key : String
  primary_key : Bool
  default : Option DefaultSpec
  server_default : Bool
  onupdate : Option DefaultSpec
  server_onupdate : Bool
deriving DecidableEq, Repr

structure Table : Type where
  name : String
  columns : List Column
  autoincrement_column : Option Column
  implicit_returning : Bool
deriving DecidableEq, Repr

structure Dialect : Type where
  supports_sequences : Bool
  sequences_optional : Bool
  implicit_returning : Bool
  postfetch_lastrowid : Bool
  preexecute_autoincrement_sequences : Bool
deriving DecidableEq, Repr

/-- A key of a parameter mapping: a plain string, a column object, or some
other expression that carries no column key. -/
inductive PKey : Type where
  | str (s : String)
  | col (c : Column)
  | exprKey (id : Nat)
deriving DecidableEq, Repr

/-- `stmt._return_defaults`: `False`, `True`, or a collection of columns. -/
inductive ReturnDefaults : Type where
  | rdFalse
  | rdTrue
  | rdCols (cols : List Column)
deriving DecidableEq, Repr

/-- Python truthiness of `stmt._return_defaults` (an empty collection is
falsy). -/
def rdTruthy : ReturnDefaults → Bool
  | .rdFalse => false
  | .rdTrue => true
  | .rdCols cs => !cs.isEmpty

/-- `stmt.parameters`: absent, a single mapping, or a nonempty sequence of
mappings (`stmt._has_multi_parameters`). -/
inductive StmtParams : Type where
  | noParams
  | single (row : List (PKey × Value))
  | multi (row0 : List (PKey × Value)) (rest : List (List (PKey × Value)))
deriving DecidableEq, Repr

def StmtParams.hasMulti : StmtParams → Bool
  | .multi _ _ => true
  | _ => false

def StmtParams.isNoParams : StmtParams → Bool
  | .noParams => true
  | _ => false

/-- `stmt.parameters[0]` when multi, else the single mapping. -/
def StmtParams.firstRow : StmtParams → Option (List (PKey × Value))
  | .noParams => none
  | .single r => some r
  | .multi r0 _ => some r0

inductive StmtKind : Type where
  | insert
  | update
  | delete
deriving DecidableEq, Repr

structure Stmt : Type where
  kind : StmtKind
  table : Table
  parameters : StmtParams
  extra_froms : List Table
  hasReturning : Bool
  return_defaults : ReturnDefaults
  select_names : List String
deriving DecidableEq, Repr

structure SqlCompiler : Type where
  isinsert : Bool
  isupdate : Bool
  inline : Bool
  column_keys : Option (List PKey)
  dialect : Dialect
deriving DecidableEq, Repr

/-- A canonical column lookup key: plain, or table-qualified for the extra
tables of a multi-table UPDATE. -/
inductive CKey : Type where
  | simple (k : String)
  | qual (t : String) (k : String)
deriving DecidableEq, Repr

/-- The rendering of a value into the VALUES / SET clause. -/
inductive Rendered : Type where
  | bind (name : String) (required : Bool)
  | anonBind
  | exprR (c : Clause)
  | seqR (colKey : String)
  | defR (arg : Nat)
deriving DecidableEq, Repr

def Rendered.isBind : Rendered → Bool
  | .bind _ _ => true
  | _ => false

/-- The left side of a `values` entry: a table column, or an arbitrary
expression target taken as-is. -/
inductive ValTarget : Type where
  | ofCol (c : Column)
  | ofExpr (id : Nat)
deriving DecidableEq, Repr

def ValTarget.isCol : ValTarget → Bool
  | .ofCol _ => true
  | .ofExpr _ => false

/-! ### Key getters (`_key_getters_for_crud_column`, crud.py lines 130-163) -/

structure CrudCtx : Type where
  compiler : SqlCompiler
  stmt : Stmt
deriving DecidableEq, Repr

/-- The multi-table UPDATE condition of `_key_getters_for_crud_column`:
`compiler.isupdate and isinstance(stmt, Update) and stmt._extra_froms`. -/
def useQualified (ctx : CrudCtx) : Bool :=
  ctx.compiler.isupdate && ctx.stmt.kind == StmtKind.update &&
    !ctx.stmt.extra_froms.isEmpty

def extraTableNames (ctx : CrudCtx) : List String :=
  ctx.stmt.extra_froms.map Table.name

/-- Modelled from the spec: the base column-key resolver
(`elements._column_as_key`, repository code not under src/).  Per spec 4.1
and 4.2, a string resolves to itself, a column reference to its column name,
and a reference that carries no column key resolves to none. -/
def columnAsKeyBase : PKey → Option CKey
  | .str s => some (.simple s)
  | .col c => some (.simple c.key)
  | .exprKey _ => none

/-- `_column_as_key`: base resolution, table-qualified for columns belonging
to the extra tables of a multi-table UPDATE (crud.py lines 140-145). -/
def columnAsKey (ctx : CrudCtx) (k : PKey) : Option CKey :=
  if useQualified ctx then
    match k, columnAsKeyBase k with
    | .col c, some (.simple sk) =>
        if (extraTableNames ctx).contains c.table then some (.qual c.table sk)
        else some (.simple sk)
    | _, r => r
  else columnAsKeyBase k

/-- `_getattr_col_key` (crud.py lines 147-151, 161). -/
def getattrColKey (ctx : CrudCtx) (c : Column) : CKey :=
  if useQualified ctx && (extraTableNames ctx).contains c.table then
    .qual c.table c.key
  else .simple c.key

/-- `_col_bind_name` (crud.py lines 153-157, 161). -/
def colBindName (ctx : CrudCtx) (c : Column) : String :=
  if useQualified ctx && (extraTableNames ctx).contains c.table then
    c.table ++ "_" ++ c.key
  else c.key

/-! ### Returning modifiers (`_get_returning_modifiers`, crud.py 445-474) -/

structure RetMods : Type where
  need_pks : Bool
  implicit_returning : Bool
  implicit_return_defaults : Option (List Column)
  postfetch_lastrowid : Bool
deriving DecidableEq, Repr

def getReturningModifiers (compiler : SqlCompiler) (stmt : Stmt) : RetMods :=
  let need_pks := compiler.isinsert && !compiler.inline &&
    !stmt.hasReturning && !stmt.parameters.hasMulti
  let implicit_returning := need_pks &&
    compiler.dialect.implicit_returning && stmt.table.implicit_returning
  let gate :=
    if compiler.isinsert then implicit_returning && rdTruthy stmt.return_defaults
    else if compiler.isupdate then
      compiler.dialect.implicit_returning && stmt.table.implicit_returning &&
        rdTruthy stmt.return_defaults
    else false
  let implicit_return_defaults : Option (List Column) :=
    if gate then
      match stmt.return_defaults with
      | .rdTrue => some stmt.table.columns
      | .rdCols cs => some cs
      | .rdFalse => some []
    else none
  let postfetch_lastrowid := need_pks && compiler.dialect.postfetch_lastrowid
  ⟨need_pks, implicit_returning, implicit_return_defaults, postfetch_lastrowid⟩

/-- `implicit_return_defaults and c in implicit_return_defaults`. -/
def irdContains (irds : Option (List Column)) (c : Column) : Bool :=
  match irds with
  | none => false
  | some l => l.contains c

/-! ### Classification state and rendering helpers -/

/-- The per-compilation mutable state: the compiler's postfetch / prefetch /
returning collections, the `values` list, the normalized `parameters` dict
(whose keys may be Python `None` when a key does not resolve), and the
multi-table `check_columns` key set. -/
structure CrudState : Type where
  postfetch : List Column
  prefetch : List Column
  returning : List Column
  values : List (ValTarget × Rendered)
  parameters : List (Option CKey × Value)
  check_columns : List CKey
deriving DecidableEq, Repr

def emptyCrudState : CrudState := ⟨[], [], [], [], [], []⟩

/-- `_create_bind_param` (crud.py 122-128): a bind parameter named after the
column unless an explicit name is given. -/
def createBindParam (c : Column) (required : Bool) (name : Option String) :
    Rendered :=
  .bind (name.getD c.key) required

/-- A type-less bind parameter adopts the column's type
(crud.py 229-232). -/
def adoptType : Clause → Clause
  | .bindp true id => .bindp false id
  | x => x

def clauseOf : Value → Clause
  | .clause cl => cl
  | _ => .bindp false 0

/-! ### Column disposition helpers (crud.py 217-348) -/

/-- `_append_param_parameter` (crud.py 217-244). -/
def appendParamParameter (ctx : CrudCtx) (mods : RetMods) (c : Column)
    (colKey : CKey) (s : CrudState) : CrudState :=
  match alookup (some colKey) s.parameters with
  | none => s
  | some value =>
    let s := { s with parameters := aremove (some colKey) s.parameters }
    if isLiteral value then
      let name :=
        if ctx.stmt.parameters.hasMulti then colBindName ctx c ++ "_0"
        else colBindName ctx c
      { s with values :=
          s.values ++ [(.ofCol c, Rendered.bind name (value == Value.required))] }
    else
      let cl := adoptType (clauseOf value)
      if c.primary_key && mods.implicit_returning then
        { s with returning := s.returning ++ [c],
                 values := s.values ++ [(.ofCol c, .exprR cl)] }
      else if irdContains mods.implicit_return_defaults c then
        { s with returning := s.returning ++ [c],
                 values := s.values ++ [(.ofCol c, .exprR cl)] }
      else
        { s with postfetch := s.postfetch ++ [c],
                 values := s.values ++ [(.ofCol c, .exprR cl)] }

/-- `_append_param_insert_pk_returning` (crud.py 247-268). -/
def appendParamInsertPkReturning (ctx : CrudCtx) (c : Column) (s : CrudState) :
    CrudState :=
  match c.default with
  | some (.sequence opt) =>
    let s :=
      if ctx.compiler.dialect.supports_sequences &&
          (!opt || !ctx.compiler.dialect.sequences_optional) then
        { s with values := s.values ++ [(.ofCol c, .seqR c.key)] }
      else s
    { s with returning := s.returning ++ [c] }
  | some (.clauseElem arg) =>
    { s with values := s.values ++ [(.ofCol c, .defR arg)],
             returning := s.returning ++ [c] }
  | some .clientSide =>
    { s with values := s.values ++ [(.ofCol c, createBindParam c false none)],
             prefetch := s.prefetch ++ [c] }
  | none => { s with returning := s.returning ++ [c] }

/-- `_append_param_insert_pk` (crud.py 271-285). -/
def appendParamInsertPk (ctx : CrudCtx) (c : Column) (s : CrudState) :
    CrudState :=
  let condA :=
    match c.default with
    | some (.sequence _) => ctx.compiler.dialect.supports_sequences
    | some _ => true
    | none => false
  let condB := (ctx.stmt.table.autoincrement_column == some c) &&
    (ctx.compiler.dialect.supports_sequences ||
     ctx.compiler.dialect.preexecute_autoincrement_sequences)
  if condA || condB then
    { s with values := s.values ++ [(.ofCol c, createBindParam c false none)],
             prefetch := s.prefetch ++ [c] }
  else s

/-- `_append_param_insert_hasdefault` (crud.py 288-318). -/
def appendParamInsertHasdefault (ctx : CrudCtx) (mods : RetMods) (c : Column)
    (s : CrudState) : CrudState :=
  match c.default with
  | some (.sequence opt) =>
    if ctx.compiler.dialect.supports_sequences &&
        (!opt || !ctx.compiler.dialect.sequences_optional) then
      let s := { s with values := s.values ++ [(.ofCol c, .seqR c.key)] }
      if irdContains mods.implicit_return_defaults c then
        { s with returning := s.returning ++ [c] }
      else if !c.primary_key then
        { s with postfetch := s.postfetch ++ [c] }
      else s
    else s
  | some (.clauseElem arg) =>
    let s := { s with values := s.values ++ [(.ofCol c, .defR arg)] }
    if irdContains mods.implicit_return_defaults c then
      { s with returning := s.returning ++ [c] }
    else if !c.primary_key then
      { s with postfetch := s.postfetch ++ [c] }
    else s
  | some .clientSide =>
    { s with values := s.values ++ [(.ofCol c, createBindParam c false none)],
             prefetch := s.prefetch ++ [c] }
  | none => s

/-- `_append_param_update` (crud.py 321-348).  An onupdate sequence falls
through to the `server_onupdate` branches. -/
def appendParamUpdate (mods : RetMods) (c : Column) (s : CrudState) :
    CrudState :=
  match c.onupdate with
  | some (.clauseElem arg) =>
    let s :=
      { s with values := s.values ++ [(ValTarget.ofCol c, Rendered.defR arg)] }
    if irdContains mods.implicit_return_defaults c then
      { s with returning := s.returning ++ [c] }
    else { s with postfetch := s.postfetch ++ [c] }
  | some .clientSide =>
    { s with values := s.values ++ [(.ofCol c, createBindParam c false none)],
             prefetch := s.prefetch ++ [c] }
  | _ =>
    if c.server_onupdate then
      if irdContains mods.implicit_return_defaults c then
        { s with returning := s.returning ++ [c] }
      else { s with postfetch := s.postfetch ++ [c] }
    else if irdContains mods.implicit_return_defaults c then
      { s with returning := s.returning ++ [c] }
    else s

/-! ### The column scan (`_scan_cols`, crud.py 166-214) -/

def scanColsStep (ctx : CrudCtx) (mods : RetMods) (s : CrudState)
    (c : Column) : CrudState :=
  let colKey := getattrColKey ctx c
  if (alookup (some colKey) s.parameters).isSome &&
      !(s.check_columns.contains colKey) then
    appendParamParameter ctx mods c colKey s
  else if ctx.compiler.isinsert then
    if c.primary_key && mods.need_pks &&
        (mods.implicit_returning || !mods.postfetch_lastrowid ||
         !(ctx.stmt.table.autoincrement_column == some c)) then
      if mods.implicit_returning then appendParamInsertPkReturning ctx c s
      else appendParamInsertPk ctx c s
    else if c.default.isSome then
      appendParamInsertHasdefault ctx mods c s
    else if c.server_default then
      if irdContains mods.implicit_return_defaults c then
        { s with returning := s.returning ++ [c] }
      else if !c.primary_key then
        { s with postfetch := s.postfetch ++ [c] }
      else s
    else if irdContains mods.implicit_return_defaults c then
      { s with returning := s.returning ++ [c] }
    else s
  else if ctx.compiler.isupdate then
    appendParamUpdate mods c s
  else s

def scanCols (ctx : CrudCtx) (mods : RetMods) (cols : List Column)
    (s : CrudState) : CrudState :=
  cols.foldl (scanColsStep ctx mods) s

/-! ### Parameter normalization (`_get_stmt_parameters_params`, 425-442) -/

def stmtParamStep (ctx : CrudCtx) (s : CrudState) (kv : PKey × Value) :
    CrudState :=
  match columnAsKey ctx kv.1 with
  | some colkey =>
    { s with parameters := asetdefault (some colkey) kv.2 s.parameters }
  | none =>
    let target : ValTarget :=
      match kv.1 with
      | .exprKey id => .ofExpr id
      | .col c => .ofCol c
      | .str _ => .ofExpr 0
    let rendered :=
      if isLiteral kv.2 then Rendered.anonBind
      else Rendered.exprR (clauseOf kv.2)
    { s with values := s.values ++ [(target, rendered)] }

def getStmtParametersParams (ctx : CrudCtx) (row : List (PKey × Value))
    (s : CrudState) : CrudState :=
  row.foldl (stmtParamStep ctx) s

/-- The implicit REQUIRED defaults built from `compiler.column_keys`
(crud.py 67-73): a dict comprehension, so later duplicates overwrite. -/
def buildRequired (ctx : CrudCtx) (keys : List PKey)
    (stmtParameters : Option (List (PKey × Value))) :
    List (Option CKey × Value) :=
  keys.foldl
    (fun d key =>
      let falsy := match stmtParameters with
        | none => true
        | some r => r.isEmpty
      let keyIn := match stmtParameters with
        | none => false
        | some r => r.any (fun kv => kv.1 = key)
      if falsy || !keyIn then ainsert (columnAsKey ctx key) Value.required d
      else d)
    []

/-! ### Multi-table UPDATE extension (`_get_multitable_params`, 351-399) -/

/-- `_clause_element_as_expr` leaves plain keys unchanged, so only
column-object keys can match an extra-table column: membership of `c` in the
normalized parameter mapping. -/
def inNorm (row : List (PKey × Value)) (c : Column) : Bool :=
  row.any (fun kv => kv.1 == PKey.col c)

def normGet (row : List (PKey × Value)) (c : Column) : Option Value :=
  (row.find? (fun kv => kv.1 == PKey.col c)).map Prod.snd

/-- Per-column body of the first multi-table loop (crud.py 360-373). -/
def multitableFirstStep (ctx : CrudCtx) (row : List (PKey × Value))
    (s : CrudState) (c : Column) : CrudState :=
  if inNorm row c then
    let s := { s with
      check_columns := s.check_columns ++ [getattrColKey ctx c] }
    match normGet row c with
    | some value =>
      if isLiteral value then
        { s with values := s.values ++
            [(.ofCol c, Rendered.bind (colBindName ctx c)
                (value == Value.required))] }
      else
        { s with postfetch := s.postfetch ++ [c],
                 values := s.values ++
                   [(.ofCol c, .exprR (clauseOf value))] }
    | none => s
  else s

/-- Per-column body of the second multi-table loop (crud.py 376-399). -/
def multitableSecondStep (ctx : CrudCtx) (row : List (PKey × Value))
    (s : CrudState) (c : Column) : CrudState :=
  if inNorm row c then s
  else
    match c.onupdate with
    | some (.clauseElem arg) =>
      { s with values := s.values ++ [(.ofCol c, .defR arg)],
               postfetch := s.postfetch ++ [c] }
    | some .clientSide =>
      { s with values := s.values ++
          [(.ofCol c, createBindParam c false (some (colBindName ctx c)))],
               prefetch := s.prefetch ++ [c] }
    | _ =>
      if c.server_onupdate then
        { s with postfetch := s.postfetch ++ [c] }
      else s

def getMultitableParams (ctx : CrudCtx) (row : List (PKey × Value))
    (s : CrudState) : CrudState :=
  let s := ctx.stmt.extra_froms.foldl
    (fun s t => t.columns.foldl (multitableFirstStep ctx row) s) s
  let affected :=
    ctx.stmt.extra_froms.filter (fun t => t.columns.any (inNorm row))
  affected.foldl
    (fun s t => t.columns.foldl (multitableSecondStep ctx row) s) s

/-! ### Multi-row expansion (`_extend_values_for_multiparams`, 402-422) -/

inductive CrudErr : Type where
  | compileError (keys : List (Option CKey))
  | keyError
  | attributeError
deriving DecidableEq, Repr

/-- Left-to-right mapping with error short-circuit (a Python comprehension in
which an element may raise). -/
def mapExcept {α β : Type} (f : α → Except CrudErr β) : List α → Except CrudErr (List β)
  | [] => .ok []
  | x :: xs =>
    match f x with
    | .error e => .error e
    | .ok y =>
      match mapExcept f xs with
      | .error e => .error e
      | .ok ys => .ok (y :: ys)

/-- Re-render one row-0 pair for a subsequent parameter row: a value present
under the column's string key is re-rendered (literal as `{key}_{i+1}`),
otherwise row 0's rendering is reused.  An expression target has no `.key`
attribute. -/
def renderRowValue (i : Nat) (row : List (PKey × Value))
    (pair : ValTarget × Rendered) : Except CrudErr (ValTarget × Rendered) :=
  match pair.1 with
  | .ofExpr _ => .error .attributeError
  | .ofCol c =>
    match alookup (PKey.str c.key) row with
    | some v =>
      .ok (pair.1,
        if isLiteral v then
          Rendered.bind (c.key ++ "_" ++ toString (i + 1)) false
        else Rendered.exprR (clauseOf v))
    | none => .ok pair

def extendValuesForMultiparams (values0 : List (ValTarget × Rendered))
    (rows : List (List (PKey × Value))) :
    Except CrudErr (List (List (ValTarget × Rendered))) :=
  match mapExcept (fun q => mapExcept (renderRowValue q.1 q.2) values0)
      rows.enum with
  | .error e => .error e
  | .ok tail => .ok (values0 :: tail)

/-! ### Top level (`_get_crud_params`, crud.py 30-119) -/

/-- The column list iterated by `_scan_cols` (crud.py 92-100): for an
INSERT-from-SELECT only the selected names, resolved against the table's
column collection, else all table columns. -/
def colsForScan (ctx : CrudCtx) : Except CrudErr (List Column) :=
  if ctx.compiler.isinsert && ctx.stmt.kind == StmtKind.insert &&
      !ctx.stmt.select_names.isEmpty then
    mapExcept (fun n =>
      match ctx.stmt.table.columns.find? (fun c => c.key == n) with
      | some c => Except.ok c
      | none => Except.error CrudErr.keyError) ctx.stmt.select_names
  else Except.ok ctx.stmt.table.columns

/-- Modelled from the spec for the multi-row case: the items iterated by
`for k in stmt.parameters` are the parameter rows themselves, which are not
column references and hence resolve to none (spec 4.1 / 4.2: a reference
that does not resolve to a column key yields none). -/
def resolvedParamItems (ctx : CrudCtx) : StmtParams → List (Option CKey)
  | .noParams => []
  | .single r => r.map (fun kv => columnAsKey ctx kv.1)
  | .multi r0 rest => (r0 :: rest).map (fun _ => none)

inductive CrudValues : Type where
  | singleRow (vals : List (ValTarget × Rendered))
  | multiRows (rows : List (List (ValTarget × Rendered)))
deriving DecidableEq, Repr

def CrudValues.rowZero : CrudValues → List (ValTarget × Rendered)
  | .singleRow l => l
  | .multiRows rows => rows.headD []

/-- Python truthiness of the local `stmt_parameters` mapping. -/
def crudTruthy (stmt : Stmt) : Bool :=
  match stmt.parameters.firstRow with
  | some row => !row.isEmpty
  | none => false

/-- The initial `parameters` dict of REQUIRED placeholders built from
`compiler.column_keys` (crud.py 67-73). -/
def crudInitParams (compiler : SqlCompiler) (stmt : Stmt) :
    List (Option CKey × Value) :=
  match compiler.column_keys with
  | none => []
  | some keys => buildRequired ⟨compiler, stmt⟩ keys stmt.parameters.firstRow

/-- The classification state reached just before `_scan_cols`: parameter
normalization (crud.py 54-83) followed by the multi-table extension
(crud.py 85-90). -/
def crudPreScanState (compiler : SqlCompiler) (stmt : Stmt) : CrudState :=
  let ctx : CrudCtx := ⟨compiler, stmt⟩
  let stmtParameters := stmt.parameters.firstRow
  let s1 := { emptyCrudState with parameters := crudInitParams compiler stmt }
  let s2 := match stmtParameters with
    | some row => getStmtParametersParams ctx row s1
    | none => s1
  if compiler.isupdate && !stmt.extra_froms.isEmpty && crudTruthy stmt then
    getMultitableParams ctx (stmtParameters.getD []) s2
  else s2

/-- The unconsumed-column-names check (crud.py 106-114): some keys when the
error fires, none otherwise. -/
def crudCheck (ctx : CrudCtx) (stmt : Stmt) (s4 : CrudState) :
    Option (List (Option CKey)) :=
  if !s4.parameters.isEmpty && crudTruthy stmt then
    let resolvedItems := resolvedParamItems ctx stmt.parameters
    let check := (s4.parameters.map Prod.fst).filter (fun pk =>
      resolvedItems.contains pk &&
      (match pk with
       | some k => !s4.check_columns.contains k
       | none => true))
    if !check.isEmpty then some check else none
  else none

def getCrudParams (compiler : SqlCompiler) (stmt : Stmt) :
    Except CrudErr (CrudState × CrudValues) :=
  let ctx : CrudCtx := ⟨compiler, stmt⟩
  if compiler.column_keys.isNone && stmt.parameters.isNoParams then
    .ok (emptyCrudState,
      .singleRow (stmt.table.columns.map
        (fun c => (ValTarget.ofCol c, createBindParam c true none))))
  else
    match colsForScan ctx with
    | .error e => .error e
    | .ok cols =>
      let mods := getReturningModifiers compiler stmt
      let s4 := scanCols ctx mods cols (crudPreScanState compiler stmt)
      match crudCheck ctx stmt s4 with
      | some check => .error (.compileError check)
      | none =>
        match stmt.parameters with
        | .multi _ rest =>
          match extendValuesForMultiparams s4.values rest with
          | .error e => .error e
          | .ok rows => .ok (s4, .multiRows rows)
        | _ => .ok (s4, .singleRow s4.values)

/-! ### ON CONFLICT clause builder (dialects/postgresql/on_conflict.py) -/

/-- A caller-supplied column / constraint reference: a plain string, or an
object whose `.name` attribute may be absent (`getattr(col, 'name', None)`). -/
inductive NameRef : Type where
  | str (s : String)
  | obj (name : Option String)
deriving DecidableEq, Repr

/-- `resolve_possibly_named_object_to_str` (on_conflict.py 11-15). -/
def resolvePossiblyNamedObjectToStr : NameRef → Option String
  | .str s => some s
  | .obj n => n

/-- A WHERE-clause expression: `_literal_as_text` wraps strings as text
clauses and passes clause elements through; `and_` builds conjunctions. -/
inductive PgExpr : Type where
  | textClause (s : String)
  | expr (id : Nat)
  | conj (a b : PgExpr)
deriving DecidableEq, Repr

/-- An argument acceptable where a filter expression is expected. -/
inductive TextOrExpr : Type where
  | ofString (s : String)
  | ofExpr (e : PgExpr)
deriving DecidableEq, Repr

def literalAsText : TextOrExpr → PgExpr
  | .ofString s => .textClause s
  | .ofExpr e => e

/-- `conflict_target_elements`: a constraint name or a column-name list. -/
inductive CTElems : Type where
  | name (s : String)
  | cols (l : List String)
deriving DecidableEq, Repr

/-- The marker `_UPDATE_SET_EXCLUDED`. -/
def updateSetExcluded : String := "__update_set_excluded__"

/-- The state of an `OnConflictClause` builder (`DoUpdate` adds the
`update_values_to_set` / `update_whereclause` fields). -/
structure OnConflictClauseS : Type where
  action_do : Option String
  conflict_target_type : Option String
  conflict_target_elements : Option CTElems
  conflict_target_whereclause : Option PgExpr
  update_values_to_set : List (String × String)
  update_whereclause : Option PgExpr
deriving DecidableEq, Repr

def OnConflictClause.init : OnConflictClauseS := ⟨none, none, none, none, [], none⟩

def DoUpdate.init : OnConflictClauseS :=
  { OnConflictClause.init with action_do := some "update" }

def DoNothing.init : OnConflictClauseS :=
  { OnConflictClause.init with action_do := some "nothing" }

inductive PgErr : Type where
  | valueError (msg : String)
deriving DecidableEq, Repr

/-- `OnConflictClause.on_constraint` (on_conflict.py 25-36). -/
def onConstraint (s : OnConflictClauseS) (constraint : NameRef) :
    Except PgErr OnConflictClauseS :=
  match resolvePossiblyNamedObjectToStr constraint with
  | none => .error (.valueError
      "constraint_name must be non-empty string or named Constraint object")
  | some n =>
    .ok { s with conflict_target_type := some "constraint",
                 conflict_target_elements := some (.name n) }

/-- The per-column extraction loop of `on_columns`: a column argument must
resolve to a truthy (nonempty) name. -/
def extractCols : List NameRef → Except PgErr (List String)
  | [] => .ok []
  | col :: rest =>
    match resolvePossiblyNamedObjectToStr col with
    | some n =>
      if n = "" then .error (.valueError "Column arguments must be name strings")
      else do
        let ns ← extractCols rest
        return n :: ns
    | none => .error (.valueError "Column arguments must be name strings")

/-- `OnConflictClause.on_columns` (on_conflict.py 38-64). -/
def onColumns (s : OnConflictClauseS) (columns : List NameRef)
    (whereArg : Option TextOrExpr) : Except PgErr OnConflictClauseS :=
  if columns.isEmpty then
    .error (.valueError "at least one column argument is required")
  else
    let s := { s with conflict_target_type := some "columns" }
    match extractCols columns with
    | .error e => .error e
    | .ok ex =>
      let s := { s with conflict_target_elements := some (.cols ex) }
      match whereArg with
      | some w =>
        .ok { s with conflict_target_whereclause := some (literalAsText w) }
      | none => .ok s

/-- `DoUpdate.set_with_excluded` (on_conflict.py 76-88). -/
def setWithExcluded (s : OnConflictClauseS) (columns : List NameRef) :
    Except PgErr OnConflictClauseS :=
  columns.foldlM
    (fun s col =>
      match resolvePossiblyNamedObjectToStr col with
      | some n =>
        if n = "" then
          .error (.valueError
            "Columns to set with excluded values must be strings or have a .name")
        else
          .ok { s with update_values_to_set :=
                  ainsert n updateSetExcluded s.update_values_to_set }
      | none =>
        .error (.valueError
          "Columns to set with excluded values must be strings or have a .name"))
    s

/-- `DoUpdate.where` (on_conflict.py 90-101): the first call sets the update
filter, later calls AND-combine with it. -/
def doUpdateWhere (s : OnConflictClauseS) (whereclause : TextOrExpr) :
    OnConflictClauseS :=
  match s.update_whereclause with
  | some f =>
    { s with update_whereclause := some (.conj f (literalAsText whereclause)) }
  | none =>
    { s with update_whereclause := some (literalAsText whereclause) }

/-! ### Statement-level predicates used by the claim theorems -/

/-- How many times column `c` occurs across the three disposition
collections. -/
def dispCount (s : CrudState) (c : Column) : Nat :=
  s.prefetch.count c + s.postfetch.count c + s.returning.count c

/-- Every prefetch column is paired with a rendered bound placeholder in the
given value list. -/
def prefetchCoveredBy (pf : List Column) (vals : List (ValTarget × Rendered)) :
    Bool :=
  pf.all (fun c => vals.any (fun p => p.1 == ValTarget.ofCol c && p.2.isBind))

/-- Invariant threaded through classification: every prefetch column has a
bound-placeholder entry in `values`. -/
def PrefetchCovered (s : CrudState) : Prop :=
  ∀ c, c ∈ s.prefetch →
    ∃ r, (ValTarget.ofCol c, r) ∈ s.values ∧ r.isBind = true

/-- The rendering claim C3 describes for an explicit parameter value of
column `c`: a bound parameter named after the column's key (suffixed `_0`
for a multi-row statement, required exactly for the Required sentinel) for a
literal, else the grouped expression with the column's type adopted. -/
def c3Rendered (ctx : CrudCtx) (c : Column) (v : Value) : Rendered :=
  if isLiteral v then
    Rendered.bind
      (if ctx.stmt.parameters.hasMulti then c.key ++ "_0" else c.key)
      (v == Value.required)
  else Rendered.exprR (adoptType (clauseOf v))

/-- The spec's description of one re-rendered multi-row value list (spec
4.5): a value present under the column's key is re-rendered, a literal as a
bound parameter `{key}_{i+1}`, otherwise row 0's rendering is reused. -/
def multirowRowSpec (values0 : List (ValTarget × Rendered)) (i : Nat)
    (row : List (PKey × Value)) : List (ValTarget × Rendered) :=
  values0.map (fun p =>
    match p.1 with
    | .ofCol c =>
      match alookup (PKey.str c.key) row with
      | some v =>
        (p.1,
          if isLiteral v then
            Rendered.bind (c.key ++ "_" ++ toString (i + 1)) false
          else Rendered.exprR (clauseOf v))
      | none => p
    | .ofExpr _ => p)

/-- The canonical keys of the supplied parameter mapping that resolve to a
column key. -/
def suppliedResolved (ctx : CrudCtx) (row : List (PKey × Value)) :
    List CKey :=
  row.filterMap (fun kv => columnAsKey ctx kv.1)

/-- Supplied keys that resolve but are matched by no scanned column: the
set the amended claim C2 says the compile error names. -/
def unconsumedSupplied (ctx : CrudCtx) (row : List (PKey × Value))
    (cs : List Column) : List CKey :=
  (suppliedResolved ctx row).filter
    (fun k => cs.all (fun c => getattrColKey ctx c != k))

/-- Every execute-time key of `compiler.column_keys` resolves to a column
key. -/
def colKeysResolvable (ctx : CrudCtx) : Bool :=
  match ctx.compiler.column_keys with
  | none => true
  | some ks => ks.all (fun k => (columnAsKey ctx k).isSome)

/-- The result is a compile error naming exactly the keys of `U`. -/
def c2ErrWith (res : Except CrudErr (CrudState × CrudValues)) (U : List CKey) :
    Bool :=
  match res with
  | .error (.compileError ks) =>
    ks.all (fun pk =>
      match pk with
      | some k => U.contains k
      | none => false) &&
    U.all (fun k => ks.contains (some k))
  | _ => false

/-- The condition under which the code produces a (truthy) effective
return-defaults set (the amended claim C4). -/
def c4Gate (compiler : SqlCompiler) (stmt : Stmt) : Bool :=
  if compiler.isinsert then
    (getReturningModifiers compiler stmt).implicit_returning &&
      rdTruthy stmt.return_defaults
  else if compiler.isupdate then
    compiler.dialect.implicit_returning && stmt.table.implicit_returning &&
      rdTruthy stmt.return_defaults
  else false

/-- Normalization of the requested return-defaults set: all table columns
for a boolean-true request, else the requested collection. -/
def normalizedReturnDefaults (stmt : Stmt) : List Column :=
  match stmt.return_defaults with
  | .rdTrue => stmt.table.columns
  | .rdCols cs => cs
  | .rdFalse => []

/-- Keys of an association list are duplicate-free. -/
def KNodup {α β : Type} (d : List (α × β)) : Prop :=
  (d.map Prod.fst).Nodup

/-- No entry of the parameters dict sits under the Python `None` key. -/
def AllSomeKeys (d : List (Option CKey × Value)) : Prop :=
  ∀ pk, pk ∈ d.map Prod.fst → pk ≠ none

/-! ### Concrete inputs for witnesses and counterexamples -/

def dialW : Dialect := ⟨false, false, false, false, false⟩

-- C1 witness input: a plain INSERT primary-key column.
def C1col : Column := ⟨"t1", "a", true, none, false, none, false⟩
def C1ctx : CrudCtx :=
  ⟨⟨true, false, false, none, dialW⟩,
   ⟨.insert, ⟨"t1", [C1col], none, true⟩, .noParams, [], false, .rdFalse, []⟩⟩
def C1mods : RetMods := ⟨true, false, none, true⟩

-- C2 counterexample input: multi-table UPDATE whose one explicit parameter
-- is keyed by an extra-table column.
def C2colA : Column := ⟨"t1", "a", false, none, false, none, false⟩
def C2colX : Column := ⟨"t2", "x", false, none, false, none, false⟩
def C2cmp : SqlCompiler := ⟨false, true, false, none, dialW⟩
def C2stmt : Stmt :=
  ⟨.update, ⟨"t1", [C2colA], none, true⟩, .single [(PKey.col C2colX, .lit 5)],
   [⟨"t2", [C2colX], none, true⟩], false, .rdFalse, []⟩

-- C2 witness input: INSERT with one explicit key matching no column.
def C2wcol : Column := ⟨"t1", "a", false, none, false, none, false⟩
def C2wcmp : SqlCompiler := ⟨true, false, false, none, dialW⟩
def C2wstmt : Stmt :=
  ⟨.insert, ⟨"t1", [C2wcol], none, true⟩, .single [(PKey.str "zzz", .lit 1)],
   [], false, .rdFalse, []⟩

-- C3 witness input.
def C3col : Column := ⟨"t1", "a", false, none, false, none, false⟩
def C3ctx : CrudCtx :=
  ⟨⟨true, false, false, none, dialW⟩,
   ⟨.insert, ⟨"t1", [C3col], none, true⟩, .single [(PKey.str "a", .lit 3)],
    [], false, .rdFalse, []⟩⟩
def C3mods : RetMods := ⟨true, false, none, false⟩
def C3state : CrudState :=
  { emptyCrudState with parameters := [(some (CKey.simple "a"), .lit 3)] }

-- C4 counterexample input: INSERT requesting return_defaults=True on a
-- dialect without implicit RETURNING.
def C4col : Column := ⟨"t1", "a", true, none, false, none, false⟩
def C4cmp : SqlCompiler := ⟨true, false, false, none, dialW⟩
def C4stmt : Stmt :=
  ⟨.insert, ⟨"t1", [C4col], none, true⟩, .noParams, [], false, .rdTrue, []⟩

-- C5 witness input.
def C5col : Column := ⟨"t1", "a", false, none, false, none, false⟩

-- C6 witness input: INSERT whose one column has a client-side default.
def C6col : Column := ⟨"t1", "d", false, some .clientSide, false, none, false⟩
def C6cmp : SqlCompiler := ⟨true, false, false, some [], dialW⟩
def C6stmt : Stmt :=
  ⟨.insert, ⟨"t1", [C6col], none, true⟩, .noParams, [], false, .rdFalse, []⟩
def C6state : CrudState :=
  ⟨[], [C6col], [], [(.ofCol C6col, .bind "d" false)], [], []⟩

-- C10 witness states.
def C10s1 : OnConflictClauseS :=
  ⟨some "update", some "columns", some (.cols ["region"]),
   some (.textClause "active"), [], none⟩
def C10s2 : OnConflictClauseS :=
  ⟨some "update", some "constraint", some (.name "uq"),
   some (.textClause "active"), [], none⟩

-- C7 witness input.
def C7col : Column := ⟨"t1", "a", false, none, false, none, false⟩
def C7cmp : SqlCompiler := ⟨true, false, false, none, dialW⟩
def C7stmt : Stmt :=
  ⟨.insert, ⟨"t1", [C7col], none, true⟩, .noParams, [], false, .rdFalse, []⟩

/-! ### Dictionary lemmas -/

section DictLemmas

variable {α β : Type} [DecidableEq α]

theorem mem_keys_iff (k : α) :
    ∀ (d : List (α × β)), k ∈ d.map Prod.fst ↔ (alookup k d).isSome = true := by
  intro d
  induction d with
  | nil => simp [alookup]
  | cons p ps ih =>
    simp only [List.map_cons, List.mem_cons, alookup]
    by_cases h : p.1 = k
    · simp [h]
    · have h' : ¬ k = p.1 := fun hh => h hh.symm
      simp [h, h', ih]

theorem alookup_empty_of_isSome {k : α} {d : List (α × β)}
    (h : (alookup k d).isSome = true) : d.isEmpty = false := by
  cases d with
  | nil => simp [alookup] at h
  | cons p ps => rfl

theorem alookup_append_some {k : α} {d : List (α × β)} {w : β}
    (h : alookup k d = some w) (e : List (α × β)) :
    alookup k (d ++ e) = some w := by
  induction d with
  | nil => simp [alookup] at h
  | cons p ps ih =>
    by_cases hp : p.1 = k
    · simp only [alookup, if_pos hp] at h
      simp [alookup, hp, h]
    · simp only [alookup, if_neg hp] at h
      simpa [alookup, hp] using ih h

theorem alookup_append_none {k : α} {d : List (α × β)}
    (h : alookup k d = none) (e : List (α × β)) :
    alookup k (d ++ e) = alookup k e := by
  induction d with
  | nil => simp
  | cons p ps ih =>
    by_cases hp : p.1 = k
    · simp [alookup, hp] at h
    · simp only [alookup, if_neg hp] at h
      simpa [alookup, hp] using ih h

theorem alookup_aremove_ne {k k' : α} (hne : k' ≠ k) :
    ∀ (d : List (α × β)), alookup k' (aremove k d) = alookup k' d := by
  intro d
  induction d with
  | nil => simp [aremove]
  | cons p ps ih =>
    have hkk' : ¬ k = k' := fun he => hne he.symm
    by_cases h : p.1 = k
    · have hp : ¬ p.1 = k' := fun he => hne (he ▸ h)
      simp [aremove, h, alookup, hp, hkk', hne]
    · by_cases h2 : p.1 = k'
      · simp [aremove, h, alookup, h2, hkk', hne]
      · simp [aremove, h, alookup, h2, ih, hkk', hne]

theorem aremove_keys_sub {k k' : α} :
    ∀ (d : List (α × β)),
      k' ∈ (aremove k d).map Prod.fst → k' ∈ d.map Prod.fst := by
  intro d
  induction d with
  | nil => simp [aremove]
  | cons p ps ih =>
    by_cases h : p.1 = k
    · simp only [aremove, if_pos h, List.map_cons, List.mem_cons]
      intro hm
      exact Or.inr hm
    · simp only [aremove, if_neg h, List.map_cons, List.mem_cons]
      rintro (h1 | h2)
      · exact Or.inl h1
      · exact Or.inr (ih h2)

theorem knodup_cons_iff {p : α × β} {ps : List (α × β)} :
    KNodup (p :: ps) ↔ p.1 ∉ ps.map Prod.fst ∧ KNodup ps := by
  simp [KNodup, List.nodup_cons]

theorem alookup_aremove_self (k : α) :
    ∀ (d : List (α × β)), KNodup d → alookup k (aremove k d) = none := by
  intro d
  induction d with
  | nil => intro _; simp [aremove, alookup]
  | cons p ps ih =>
    intro hnd
    rcases knodup_cons_iff.mp hnd with ⟨hp, hps⟩
    by_cases h : p.1 = k
    · simp only [aremove, if_pos h]
      cases he : alookup k ps with
      | none => rfl
      | some w =>
        exfalso
        apply hp
        rw [h, mem_keys_iff, he]
        rfl
    · simp only [aremove, if_neg h, alookup, if_neg h]
      exact ih hps

theorem knodup_aremove (k : α) :
    ∀ (d : List (α × β)), KNodup d → KNodup (aremove k d) := by
  intro d
  induction d with
  | nil => intro h; simpa [aremove] using h
  | cons p ps ih =>
    intro hnd
    rcases knodup_cons_iff.mp hnd with ⟨hp, hps⟩
    by_cases h : p.1 = k
    · simpa [aremove, h] using hps
    · rw [aremove, if_neg h]
      refine knodup_cons_iff.mpr ⟨?_, ih hps⟩
      intro hm
      exact hp (aremove_keys_sub _ hm)

theorem alookup_asetdefault_isSome (k : α) (v : β) (d : List (α × β)) :
    (alookup k (asetdefault k v d)).isSome = true := by
  unfold asetdefault
  cases he : alookup k d with
  | some w => simp [he]
  | none =>
    simp only [he, Option.isSome_none, Bool.false_eq_true, if_neg,
      not_false_iff]
    rw [alookup_append_none he]
    simp [alookup]

theorem alookup_asetdefault_ne {k k' : α} (hne : k' ≠ k) (v : β)
    (d : List (α × β)) : alookup k' (asetdefault k v d) = alookup k' d := by
  unfold asetdefault
  cases he : alookup k d with
  | some w => simp [he]
  | none =>
    simp only [he, Option.isSome_none, Bool.false_eq_true, if_neg,
      not_false_iff]
    cases he' : alookup k' d with
    | some w => exact alookup_append_some he' _
    | none =>
      rw [alookup_append_none he']
      have hkk' : ¬ k = k' := fun h => hne h.symm
      simp [alookup, hkk']

theorem knodup_append_single {k : α} {v : β} {d : List (α × β)}
    (hnd : KNodup d) (hk : alookup k d = none) : KNodup (d ++ [(k, v)]) := by
  unfold KNodup at hnd ⊢
  rw [List.map_append]
  refine List.Nodup.append hnd (List.nodup_singleton _) ?_
  intro a ha hb
  simp only [List.map_cons, List.map_nil, List.mem_singleton] at hb
  subst hb
  rw [mem_keys_iff, hk] at ha
  simp at ha

theorem knodup_asetdefault (k : α) (v : β) (d : List (α × β))
    (hnd : KNodup d) : KNodup (asetdefault k v d) := by
  unfold asetdefault
  cases he : alookup k d with
  | some w => simpa [he]
  | none =>
    simp only [he, Option.isSome_none, Bool.false_eq_true, if_neg,
      not_false_iff]
    exact knodup_append_single hnd he

theorem alookup_map_overwrite {k k' : α} (hne : k' ≠ k) (v : β) :
    ∀ (d : List (α × β)),
      alookup k' (d.map (fun p => if p.1 = k then (k, v) else p)) =
        alookup k' d := by
  intro d
  induction d with
  | nil => simp [alookup]
  | cons p ps ih =>
    have hkk' : ¬ k = k' := fun he => hne he.symm
    by_cases h : p.1 = k
    · simp [alookup, h, hkk', hne, ih]
    · by_cases h2 : p.1 = k'
      · simp [alookup, h, h2, hkk', hne]
      · simp [alookup, h, h2, ih, hkk', hne]

theorem alookup_ainsert_ne {k k' : α} (hne : k' ≠ k) (v : β)
    (d : List (α × β)) : alookup k' (ainsert k v d) = alookup k' d := by
  unfold ainsert
  cases he : alookup k d with
  | some w => simp [he, alookup_map_overwrite hne]
  | none =>
    simp only [he, Option.isSome_none, Bool.false_eq_true, if_neg,
      not_false_iff]
    cases he' : alookup k' d with
    | some w => exact alookup_append_some he' _
    | none =>
      rw [alookup_append_none he']
      have hkk' : ¬ k = k' := fun h => hne h.symm
      simp [alookup, hkk']

theorem knodup_ainsert (k : α) (v : β) (d : List (α × β)) (hnd : KNodup d) :
    KNodup (ainsert k v d) := by
  unfold ainsert
  cases he : alookup k d with
  | some w =>
    simp only [he, Option.isSome_some, if_pos]
    have hkeys : (d.map (fun p => if p.1 = k then (k, v) else p)).map Prod.fst
        = d.map Prod.fst := by
      rw [List.map_map]
      apply List.map_congr_left
      intro p _
      by_cases h2 : p.1 = k <;> simp [h2]
    unfold KNodup at hnd ⊢
    rw [hkeys]
    exact hnd
  | none =>
    simp only [he, Option.isSome_none, Bool.false_eq_true, if_neg,
      not_false_iff]
    exact knodup_append_single hnd he

end DictLemmas

theorem foldl_preserves {γ α : Type} (P : γ → Prop) (f : γ → α → γ)
    (h : ∀ s a, P s → P (f s a)) :
    ∀ (l : List α) (s : γ), P s → P (l.foldl f s) := by
  intro l
  induction l with
  | nil => intro s hs; exact hs
  | cons x xs ih => intro s hs; exact ih (f s x) (h s x hs)

theorem mapExcept_ok_of_all {α β : Type} (f : α → Except CrudErr β)
    (g : α → β) :
    ∀ (l : List α), (∀ a ∈ l, f a = .ok (g a)) →
      mapExcept f l = .ok (l.map g) := by
  intro l
  induction l with
  | nil => intro _; rfl
  | cons x xs ih =>
    intro h
    have hx := h x (by simp)
    have hxs := ih (fun a ha => h a (by simp [ha]))
    simp [mapExcept, hx, hxs]

/-! ### Claim C7: fully-unparameterized statement shortcut -/

/-- C7: when neither explicit column keys nor statement parameters are
supplied, compilation returns one required bound parameter per declared
table column, in declaration order, with the prefetch, postfetch and
returning collections left empty. -/
theorem getCrudParams_unparameterized (compiler : SqlCompiler) (stmt : Stmt)
    (hck : compiler.column_keys = none)
    (hp : stmt.parameters = StmtParams.noParams) :
    getCrudParams compiler stmt =
      .ok (emptyCrudState,
        .singleRow (stmt.table.columns.map
          (fun c => (ValTarget.ofCol c, Rendered.bind c.key true)))) := by
  simp [getCrudParams, hck, hp, StmtParams.isNoParams, createBindParam]

theorem getCrudParams_unparameterized_witness :
    C7cmp.column_keys = none ∧ C7stmt.parameters = StmtParams.noParams ∧
    getCrudParams C7cmp C7stmt =
      .ok (emptyCrudState,
        .singleRow (C7stmt.table.columns.map
          (fun c => (ValTarget.ofCol c, Rendered.bind c.key true)))) :=
  ⟨rfl, rfl, getCrudParams_unparameterized C7cmp C7stmt rfl rfl⟩

/-! ### Claim C8: DoUpdate.where accumulates conjunctively -/

/-- C8: the first `where` call sets the update filter; each later call
replaces the filter `F` with `F AND B`, so `where(A).where(B)` yields
`A AND B`, never `B`. -/
theorem doUpdateWhere_accumulates (s : OnConflictClauseS) (A B : TextOrExpr)
    (F : PgExpr) :
    (s.update_whereclause = none →
      (doUpdateWhere s A).update_whereclause = some (literalAsText A) ∧
      (doUpdateWhere (doUpdateWhere s A) B).update_whereclause =
        some (PgExpr.conj (literalAsText A) (literalAsText B))) ∧
    (s.update_whereclause = some F →
      (doUpdateWhere s B).update_whereclause =
        some (PgExpr.conj F (literalAsText B))) := by
  constructor
  · intro h
    simp [doUpdateWhere, h]
  · intro h
    simp [doUpdateWhere, h]

theorem doUpdateWhere_accumulates_witness :
    DoUpdate.init.update_whereclause = none ∧
    (doUpdateWhere (doUpdateWhere DoUpdate.init (TextOrExpr.ofString "a"))
        (TextOrExpr.ofString "b")).update_whereclause =
      some (PgExpr.conj (PgExpr.textClause "a") (PgExpr.textClause "b")) :=
  ⟨rfl,
   ((doUpdateWhere_accumulates DoUpdate.init (TextOrExpr.ofString "a")
      (TextOrExpr.ofString "b") (PgExpr.textClause "x")).1 rfl).2⟩

/-! ### Claim C9: on_constraint and empty names -/

/-- C9: evaluation at the failing input.  The code's own error message
demands a non-empty constraint name, yet `on_constraint("")` raises nothing
and installs the empty string as the conflict target: only a `None`
resolution (an object without a `.name`) is rejected. -/
theorem onConstraint_empty_name_accepted :
    resolvePossiblyNamedObjectToStr (NameRef.str "") = some "" ∧
    onConstraint OnConflictClause.init (NameRef.str "") =
      .ok { OnConflictClause.init with
            conflict_target_type := some "constraint",
            conflict_target_elements := some (.name "") } ∧
    onConstraint OnConflictClause.init (NameRef.obj none) =
      .error (.valueError
        "constraint_name must be non-empty string or named Constraint object") :=
  ⟨rfl, rfl, rfl⟩

/-! ### Claim C10: on_constraint leaves the columns-target filter behind -/

/-- C10: after `on_columns(cols, where=W)` with a non-None `W`, a later
`on_constraint(name)` updates only the conflict target type and elements;
the stored conflict-target where-filter `W` is left in place. -/
theorem onConstraint_preserves_target_where (s s1 s2 : OnConflictClauseS)
    (cols : List NameRef) (W : TextOrExpr) (nref : NameRef) (n : String)
    (h1 : onColumns s cols (some W) = .ok s1)
    (hres : resolvePossiblyNamedObjectToStr nref = some n)
    (h2 : onConstraint s1 nref = .ok s2) :
    s1.conflict_target_whereclause = some (literalAsText W) ∧
    s2 = { s1 with conflict_target_type := some "constraint",
                   conflict_target_elements := some (.name n) } := by
  by_cases he : cols.isEmpty
  · simp [onColumns, he] at h1
  · simp only [onColumns, he, Bool.false_eq_true, if_neg, not_false_iff] at h1
    cases hex : extractCols cols with
    | error e => rw [hex] at h1; exact absurd h1 (by simp)
    | ok ex =>
      rw [hex] at h1
      simp only [Except.ok.injEq] at h1
      simp only [onConstraint, hres] at h2
      simp only [Except.ok.injEq] at h2
      subst h1
      subst h2
      constructor
      · rfl
      · rfl

theorem onConstraint_preserves_target_where_witness :
    onColumns DoUpdate.init [NameRef.str "region"]
        (some (TextOrExpr.ofString "active")) = .ok C10s1 ∧
    onConstraint C10s1 (NameRef.str "uq") = .ok C10s2 ∧
    C10s1.conflict_target_whereclause =
      some (literalAsText (TextOrExpr.ofString "active")) ∧
    C10s2 = { C10s1 with conflict_target_type := some "constraint",
                         conflict_target_elements := some (.name "uq") } :=
  ⟨by decide, by decide,
   (onConstraint_preserves_target_where DoUpdate.init C10s1 C10s2
      [NameRef.str "region"] (TextOrExpr.ofString "active")
      (NameRef.str "uq") "uq" (by decide) (by decide) (by decide)).1,
   (onConstraint_preserves_target_where DoUpdate.init C10s1 C10s2
      [NameRef.str "region"] (TextOrExpr.ofString "active")
      (NameRef.str "uq") "uq" (by decide) (by decide) (by decide)).2⟩

/-! ### Claim C4: returning modifiers -/

/-- C4 (amended): `need_pks` and `implicit_returning` are exactly as the
claim states; the effective return-defaults set, however, is the normalized
request (all table columns for a boolean-true request, else the requested
collection) only when the statement's return-defaults gate holds — for an
INSERT the gate is `implicit_returning` plus a truthy request, for an UPDATE
dialect and table implicit-RETURNING support plus a truthy request, and for
any other statement (DELETE) it never holds — and it is false/none
otherwise. -/
theorem getReturningModifiers_characterization (compiler : SqlCompiler)
    (stmt : Stmt) :
    ((getReturningModifiers compiler stmt).need_pks = true ↔
      (compiler.isinsert = true ∧ compiler.inline = false ∧
       stmt.hasReturning = false ∧ stmt.parameters.hasMulti = false)) ∧
    ((getReturningModifiers compiler stmt).implicit_returning = true ↔
      ((getReturningModifiers compiler stmt).need_pks = true ∧
       compiler.dialect.implicit_returning = true ∧
       stmt.table.implicit_returning = true)) ∧
    (getReturningModifiers compiler stmt).implicit_return_defaults =
      (if c4Gate compiler stmt then some (normalizedReturnDefaults stmt)
       else none) := by
  refine ⟨?_, ?_, ?_⟩
  · simp [getReturningModifiers, Bool.and_eq_true]
    tauto
  · simp [getReturningModifiers, Bool.and_eq_true]
    tauto
  · simp only [getReturningModifiers, c4Gate, normalizedReturnDefaults]
    cases stmt.return_defaults <;>
      cases hi : compiler.isinsert <;>
        cases hu : compiler.isupdate <;> simp [rdTruthy]

/-- C4 counterexample: an INSERT with `return_defaults=True` on a dialect
without implicit RETURNING gets a false/none effective return-defaults set,
not "all table columns" as the claim states. -/
theorem getReturningModifiers_claim_counterexample :
    C4stmt.kind = StmtKind.insert ∧
    C4stmt.return_defaults = ReturnDefaults.rdTrue ∧
    C4stmt.table.columns ≠ [] ∧
    (getReturningModifiers C4cmp C4stmt).implicit_return_defaults ≠
      some C4stmt.table.columns := by
  refine ⟨rfl, rfl, by decide, by decide⟩

/-! ### Claim C3: explicit parameter values -/

/-- C3: a column with an explicit parameter value contributes exactly one
`values` entry: a literal is rendered as a bound parameter named after the
column's key (suffixed `_0` for a multi-row statement) whose required flag
is set exactly for the Required sentinel; an expression value sends the
column to `returning` when it is a primary key under implicit RETURNING or
in the effective return-defaults set, and to `postfetch` otherwise.  The
prefetch collection is never touched. -/
theorem appendParamParameter_explicit_value (ctx : CrudCtx) (mods : RetMods)
    (c : Column) (colKey : CKey) (s : CrudState) (v : Value)
    (hv : alookup (some colKey) s.parameters = some v)
    (hb : colBindName ctx c = c.key) :
    ((appendParamParameter ctx mods c colKey s).values =
      s.values ++ [(ValTarget.ofCol c, c3Rendered ctx c v)]) ∧
    (appendParamParameter ctx mods c colKey s).prefetch = s.prefetch ∧
    (isLiteral v = true →
      (appendParamParameter ctx mods c colKey s).postfetch = s.postfetch ∧
      (appendParamParameter ctx mods c colKey s).returning = s.returning) ∧
    (isLiteral v = false →
      (((c.primary_key && mods.implicit_returning) ||
         irdContains mods.implicit_return_defaults c) = true →
        (appendParamParameter ctx mods c colKey s).returning =
          s.returning ++ [c] ∧
        (appendParamParameter ctx mods c colKey s).postfetch = s.postfetch) ∧
      (((c.primary_key && mods.implicit_returning) ||
         irdContains mods.implicit_return_defaults c) = false →
        (appendParamParameter ctx mods c colKey s).postfetch =
          s.postfetch ++ [c] ∧
        (appendParamParameter ctx mods c colKey s).returning =
          s.returning)) := by
  by_cases hl : isLiteral v = true
  · simp [appendParamParameter, hv, hl, c3Rendered, hb]
  · by_cases h1 : (c.primary_key && mods.implicit_returning) = true
    · simp [appendParamParameter, hv, hl, h1, c3Rendered]
    · by_cases h2 : irdContains mods.implicit_return_defaults c = true
      · simp [appendParamParameter, hv, hl, h1, h2, c3Rendered]
      · simp [appendParamParameter, hv, hl, h1, h2, c3Rendered]

theorem appendParamParameter_explicit_value_witness :
    alookup (some (CKey.simple "a")) C3state.parameters =
      some (Value.lit 3) ∧
    colBindName C3ctx C3col = C3col.key ∧
    (appendParamParameter C3ctx C3mods C3col (CKey.simple "a")
        C3state).values =
      C3state.values ++
        [(ValTarget.ofCol C3col, c3Rendered C3ctx C3col (Value.lit 3))] :=
  ⟨by decide, by decide,
   (appendParamParameter_explicit_value C3ctx C3mods C3col (CKey.simple "a")
      C3state (Value.lit 3) (by decide) (by decide)).1⟩

/-! ### Claim C5: multi-row value expansion -/

/-- C5: when every row-0 value target is a column, multi-row expansion
yields row 0 followed by one list per further row, each obtained from row
0's list pointwise — re-rendering the value when the column's key is present
in that row's mapping (a literal as a bound parameter `{key}_{i+1}`), and
reusing row 0's rendering verbatim otherwise — so every row's list has the
same length and column order as row 0's. -/
theorem extendValuesForMultiparams_rows
    (values0 : List (ValTarget × Rendered))
    (rows : List (List (PKey × Value)))
    (hcols : values0.all (fun p => p.1.isCol) = true) :
    extendValuesForMultiparams values0 rows =
      .ok (values0 ::
        rows.enum.map (fun q => multirowRowSpec values0 q.1 q.2)) ∧
    (values0 :: rows.enum.map (fun q => multirowRowSpec values0 q.1 q.2)).all
      (fun l => l.map Prod.fst == values0.map Prod.fst) = true := by
  have hrow : ∀ (i : Nat) (row : List (PKey × Value)),
      mapExcept (renderRowValue i row) values0 =
        .ok (multirowRowSpec values0 i row) := by
    intro i row
    unfold multirowRowSpec
    apply mapExcept_ok_of_all
    intro p hp
    have hc : p.1.isCol = true := by
      rw [List.all_eq_true] at hcols
      exact hcols p hp
    cases ht : p.1 with
    | ofExpr e => rw [ht] at hc; simp [ValTarget.isCol] at hc
    | ofCol c =>
      cases hlk : alookup (PKey.str c.key) row with
      | some v => simp [renderRowValue, ht, hlk]
      | none => simp [renderRowValue, ht, hlk]
  have houter : mapExcept
      (fun q => mapExcept (renderRowValue q.1 q.2) values0) rows.enum =
      .ok (rows.enum.map (fun q => multirowRowSpec values0 q.1 q.2)) := by
    apply mapExcept_ok_of_all
    intro q _
    exact hrow q.1 q.2
  have hfst : ∀ (i : Nat) (row : List (PKey × Value)),
      (multirowRowSpec values0 i row).map Prod.fst =
        values0.map Prod.fst := by
    intro i row
    unfold multirowRowSpec
    rw [List.map_map]
    apply List.map_congr_left
    intro p _
    cases ht : p.1 with
    | ofExpr e => simp [ht]
    | ofCol c =>
      cases hlk : alookup (PKey.str c.key) row with
      | some v => simp [ht, hlk]
      | none => simp [ht, hlk]
  constructor
  · simp [extendValuesForMultiparams, houter]
  · rw [List.all_eq_true]
    intro l hl
    rcases List.mem_cons.mp hl with h | h
    · subst h
      simp
    · rcases List.mem_map.mp h with ⟨q, _, hq⟩
      rw [← hq, hfst q.1 q.2]
      simp

theorem extendValuesForMultiparams_rows_witness :
    ([((ValTarget.ofCol C5col), Rendered.bind "a" false)].all
      (fun p => p.1.isCol) = true) ∧
    extendValuesForMultiparams
        [((ValTarget.ofCol C5col), Rendered.bind "a" false)]
        [[(PKey.str "a", Value.lit 7)]] =
      .ok ([((ValTarget.ofCol C5col), Rendered.bind "a" false)] ::
        ([[(PKey.str "a", Value.lit 7)]].enum.map
          (fun q => multirowRowSpec
            [((ValTarget.ofCol C5col), Rendered.bind "a" false)] q.1 q.2))) :=
  ⟨by decide,
   (extendValuesForMultiparams_rows
      [((ValTarget.ofCol C5col), Rendered.bind "a" false)]
      [[(PKey.str "a", Value.lit 7)]] (by decide)).1⟩

/-! ### Claim C2 counterexample -/

/-- C2 counterexample: a multi-table UPDATE whose one explicit parameter is
keyed by an extra-table column.  The key resolves to the qualified key
`("t2", "x")`, which matches no target-table column key, yet compilation
succeeds: the multi-table path consumed the value, so no CompileError is
raised. -/
theorem unconsumed_check_counterexample :
    columnAsKey ⟨C2cmp, C2stmt⟩ (PKey.col C2colX) =
      some (CKey.qual "t2" "x") ∧
    (C2stmt.table.columns.all
      (fun c => getattrColKey ⟨C2cmp, C2stmt⟩ c != CKey.qual "t2" "x")) =
      true ∧
    (getCrudParams C2cmp C2stmt).isOk = true := by
  refine ⟨by decide, by decide, by decide⟩

/-! ### Claim C1: at most one disposition per column on INSERT -/

theorem count_singleton_zero {α : Type} [DecidableEq α] {a b : α}
    (h : b ≠ a) : List.count a [b] = 0 := by
  rw [List.count_eq_zero]
  intro hm
  rw [List.mem_singleton] at hm
  exact h hm.symm

theorem count_singleton_self {α : Type} [DecidableEq α] (a : α) :
    List.count a [a] = 1 := by
  simp

theorem count_append_one {α : Type} [DecidableEq α] (l : List α) (b a : α) :
    (l ++ [b]).count a = l.count a + (if b = a then 1 else 0) := by
  by_cases h : b = a
  · subst h
    simp [List.count_append]
  · simp [List.count_append, h, count_singleton_zero h]

theorem appendParamParameter_dispCount_other (ctx : CrudCtx) (mods : RetMods)
    (d : Column) (colKey : CKey) (s : CrudState) (c : Column) (h : d ≠ c) :
    dispCount (appendParamParameter ctx mods d colKey s) c = dispCount s c := by
  unfold appendParamParameter dispCount
  try dsimp only []
  repeat' split
  all_goals simp [count_append_one, h, count_singleton_zero h]

theorem appendParamInsertPkReturning_dispCount_other (ctx : CrudCtx)
    (d : Column) (s : CrudState) (c : Column) (h : d ≠ c) :
    dispCount (appendParamInsertPkReturning ctx d s) c = dispCount s c := by
  unfold appendParamInsertPkReturning dispCount
  try dsimp only []
  repeat' split
  all_goals simp [count_append_one, h, count_singleton_zero h]

theorem appendParamInsertPk_dispCount_other (ctx : CrudCtx)
    (d : Column) (s : CrudState) (c : Column) (h : d ≠ c) :
    dispCount (appendParamInsertPk ctx d s) c = dispCount s c := by
  unfold appendParamInsertPk dispCount
  try dsimp only []
  repeat' split
  all_goals simp [count_append_one, h, count_singleton_zero h]

theorem appendParamInsertHasdefault_dispCount_other (ctx : CrudCtx)
    (mods : RetMods) (d : Column) (s : CrudState) (c : Column) (h : d ≠ c) :
    dispCount (appendParamInsertHasdefault ctx mods d s) c = dispCount s c := by
  unfold appendParamInsertHasdefault dispCount
  try dsimp only []
  repeat' split
  all_goals simp [count_append_one, h, count_singleton_zero h]

theorem appendParamUpdate_dispCount_other (mods : RetMods)
    (d : Column) (s : CrudState) (c : Column) (h : d ≠ c) :
    dispCount (appendParamUpdate mods d s) c = dispCount s c := by
  unfold appendParamUpdate dispCount
  try dsimp only []
  repeat' split
  all_goals simp [count_append_one, h, count_singleton_zero h]

theorem scanColsStep_dispCount_other (ctx : CrudCtx) (mods : RetMods)
    (s : CrudState) (d c : Column) (h : d ≠ c) :
    dispCount (scanColsStep ctx mods s d) c = dispCount s c := by
  unfold scanColsStep
  try dsimp only []
  by_cases hg : ((alookup (some (getattrColKey ctx d)) s.parameters).isSome &&
      !(s.check_columns.contains (getattrColKey ctx d))) = true
  · rw [if_pos hg]
    exact appendParamParameter_dispCount_other ctx mods d _ s c h
  · rw [if_neg hg]
    by_cases hi : ctx.compiler.isinsert = true
    · rw [if_pos hi]
      by_cases hpk : (d.primary_key && mods.need_pks &&
          (mods.implicit_returning || !mods.postfetch_lastrowid ||
           !(ctx.stmt.table.autoincrement_column == some d))) = true
      · rw [if_pos hpk]
        by_cases hir : mods.implicit_returning = true
        · rw [if_pos hir]
          exact appendParamInsertPkReturning_dispCount_other ctx d s c h
        · rw [if_neg hir]
          exact appendParamInsertPk_dispCount_other ctx d s c h
      · rw [if_neg hpk]
        by_cases hd : d.default.isSome = true
        · rw [if_pos hd]
          exact appendParamInsertHasdefault_dispCount_other ctx mods d s c h
        · rw [if_neg hd]
          unfold dispCount
          repeat' split
          all_goals simp [count_append_one, h, count_singleton_zero h]
    · rw [if_neg hi]
      by_cases hu : ctx.compiler.isupdate = true
      · rw [if_pos hu]
        exact appendParamUpdate_dispCount_other mods d s c h
      · rw [if_neg hu]

theorem appendParamInsertPkReturning_dispCount_self (ctx : CrudCtx)
    (c : Column) (s : CrudState) :
    dispCount (appendParamInsertPkReturning ctx c s) c ≤ dispCount s c + 1 := by
  unfold appendParamInsertPkReturning dispCount
  try dsimp only []
  repeat' split
  all_goals simp [count_append_one]
  all_goals omega

theorem appendParamInsertPk_dispCount_self (ctx : CrudCtx)
    (c : Column) (s : CrudState) :
    dispCount (appendParamInsertPk ctx c s) c ≤ dispCount s c + 1 := by
  unfold appendParamInsertPk dispCount
  try dsimp only []
  repeat' split
  all_goals simp [count_append_one]
  all_goals omega

theorem appendParamInsertHasdefault_dispCount_self (ctx : CrudCtx)
    (mods : RetMods) (c : Column) (s : CrudState) :
    dispCount (appendParamInsertHasdefault ctx mods c s) c ≤
      dispCount s c + 1 := by
  unfold appendParamInsertHasdefault dispCount
  try dsimp only []
  repeat' split
  all_goals simp [count_append_one]
  all_goals omega

theorem scanColsStep_dispCount_self_insert (ctx : CrudCtx) (mods : RetMods)
    (s : CrudState) (c : Column)
    (hp : alookup (some (getattrColKey ctx c)) s.parameters = none) :
    dispCount (scanColsStep ctx mods s c) c ≤ dispCount s c + 1 := by
  unfold scanColsStep
  try dsimp only []
  have hg : ((alookup (some (getattrColKey ctx c)) s.parameters).isSome &&
      !(s.check_columns.contains (getattrColKey ctx c))) = false := by
    rw [hp]
    rfl
  rw [hg]
  rw [if_neg (by simp : ¬ (false = true))]
  by_cases hi : ctx.compiler.isinsert = true
  · rw [if_pos hi]
    by_cases hpk : (c.primary_key && mods.need_pks &&
        (mods.implicit_returning || !mods.postfetch_lastrowid ||
         !(ctx.stmt.table.autoincrement_column == some c))) = true
    · rw [if_pos hpk]
      by_cases hir : mods.implicit_returning = true
      · rw [if_pos hir]
        exact appendParamInsertPkReturning_dispCount_self ctx c s
      · rw [if_neg hir]
        exact appendParamInsertPk_dispCount_self ctx c s
    · rw [if_neg hpk]
      by_cases hd : c.default.isSome = true
      · rw [if_pos hd]
        exact appendParamInsertHasdefault_dispCount_self ctx mods c s
      · rw [if_neg hd]
        unfold dispCount
        repeat' split
        all_goals simp [count_append_one]
        all_goals omega
  · rw [if_neg hi]
    by_cases hu : ctx.compiler.isupdate = true
    · rw [if_pos hu]
      unfold appendParamUpdate dispCount
      dsimp only []
      repeat' split
      all_goals simp [count_append_one]
      all_goals omega
    · rw [if_neg hu]
      simp

theorem alookup_aremove_of_none {α β : Type} [DecidableEq α] {k : α}
    (k' : α) {d : List (α × β)} (h : alookup k d = none) :
    alookup k (aremove k' d) = none := by
  cases he : alookup k (aremove k' d) with
  | none => rfl
  | some w =>
    exfalso
    have h1 : k ∈ (aremove k' d).map Prod.fst := by
      rw [mem_keys_iff, he]
      rfl
    have h2 := aremove_keys_sub d h1
    rw [mem_keys_iff, h] at h2
    simp at h2

theorem appendParamInsertPkReturning_params (ctx : CrudCtx) (d : Column)
    (s : CrudState) :
    (appendParamInsertPkReturning ctx d s).parameters = s.parameters := by
  unfold appendParamInsertPkReturning
  try dsimp only []
  repeat' split
  all_goals rfl

theorem appendParamInsertPk_params (ctx : CrudCtx) (d : Column)
    (s : CrudState) :
    (appendParamInsertPk ctx d s).parameters = s.parameters := by
  unfold appendParamInsertPk
  try dsimp only []
  repeat' split
  all_goals rfl

theorem appendParamInsertHasdefault_params (ctx : CrudCtx) (mods : RetMods)
    (d : Column) (s : CrudState) :
    (appendParamInsertHasdefault ctx mods d s).parameters = s.parameters := by
  unfold appendParamInsertHasdefault
  try dsimp only []
  repeat' split
  all_goals rfl

theorem appendParamUpdate_params (mods : RetMods) (d : Column)
    (s : CrudState) :
    (appendParamUpdate mods d s).parameters = s.parameters := by
  unfold appendParamUpdate
  try dsimp only []
  repeat' split
  all_goals rfl

theorem appendParamParameter_params_none (ctx : CrudCtx) (mods : RetMods)
    (d : Column) (ck : CKey) (s : CrudState) {k : Option CKey}
    (hk : alookup k s.parameters = none) :
    alookup k (appendParamParameter ctx mods d ck s).parameters = none := by
  unfold appendParamParameter
  try dsimp only []
  repeat' split
  all_goals first
    | exact hk
    | exact alookup_aremove_of_none _ hk

theorem scanColsStep_params_none (ctx : CrudCtx) (mods : RetMods)
    (s : CrudState) (d : Column) {k : Option CKey}
    (hk : alookup k s.parameters = none) :
    alookup k (scanColsStep ctx mods s d).parameters = none := by
  unfold scanColsStep
  try dsimp only []
  repeat' split
  all_goals first
    | exact hk
    | exact appendParamParameter_params_none ctx mods d _ s hk
    | (rw [appendParamInsertPkReturning_params]; exact hk)
    | (rw [appendParamInsertPk_params]; exact hk)
    | (rw [appendParamInsertHasdefault_params]; exact hk)
    | (rw [appendParamUpdate_params]; exact hk)

theorem scanCols_dispCount_le (ctx : CrudCtx) (mods : RetMods) (c : Column) :
    ∀ (cols : List Column) (s : CrudState),
      alookup (some (getattrColKey ctx c)) s.parameters = none →
      dispCount (scanCols ctx mods cols s) c ≤
        dispCount s c + cols.count c := by
  intro cols
  induction cols with
  | nil =>
    intro s hp
    simp [scanCols]
  | cons d ds ih =>
    intro s hp
    have hp' := scanColsStep_params_none ctx mods s d hp
    have hstep : scanCols ctx mods (d :: ds) s =
        scanCols ctx mods ds (scanColsStep ctx mods s d) := by
      simp [scanCols]
    by_cases hdc : d = c
    · subst hdc
      have h1 := scanColsStep_dispCount_self_insert ctx mods s d hp
      have h2 := ih (scanColsStep ctx mods s d) hp'
      have hcc : (d :: ds).count d = ds.count d + 1 := by
        simp [List.count_cons]
      rw [hstep, hcc]
      omega
    · have h1 := scanColsStep_dispCount_other ctx mods s d c hdc
      have h2 := ih (scanColsStep ctx mods s d) hp'
      have hcc : (d :: ds).count c = ds.count c := by
        simp [List.count_cons, hdc]
      rw [hstep, hcc]
      omega

/-- C1: on an INSERT compilation, a target-table column without an explicit
parameter value lands in at most one disposition: starting from a state in
which it appears in no output collection and its key is not among the
normalized parameters, one full column scan leaves it in at most one of
prefetch, postfetch, returning — in particular never in both postfetch and
returning. -/
theorem scanCols_insert_disposition (ctx : CrudCtx) (mods : RetMods)
    (cols : List Column) (s : CrudState) (c : Column)
    (hins : ctx.compiler.isinsert = true)
    (hnd : cols.Nodup) (hc : c ∈ cols)
    (hp : alookup (some (getattrColKey ctx c)) s.parameters = none)
    (h0 : dispCount s c = 0) :
    dispCount (scanCols ctx mods cols s) c ≤ 1 ∧
    ¬(c ∈ (scanCols ctx mods cols s).postfetch ∧
      c ∈ (scanCols ctx mods cols s).returning) ∧
    ¬(c ∈ (scanCols ctx mods cols s).prefetch ∧
      c ∈ (scanCols ctx mods cols s).postfetch) ∧
    ¬(c ∈ (scanCols ctx mods cols s).prefetch ∧
      c ∈ (scanCols ctx mods cols s).returning) := by
  have hcnt : cols.count c ≤ 1 := List.nodup_iff_count_le_one.mp hnd c
  have h1 := scanCols_dispCount_le ctx mods c cols s hp
  have hle : dispCount (scanCols ctx mods cols s) c ≤ 1 := by omega
  have hmem : ∀ (l : List Column), c ∈ l → 1 ≤ l.count c := by
    intro l hl
    exact List.one_le_count_iff.mpr hl
  refine ⟨hle, ?_, ?_, ?_⟩
  · rintro ⟨ha, hb⟩
    have ha' := hmem _ ha
    have hb' := hmem _ hb
    unfold dispCount at hle
    omega
  · rintro ⟨ha, hb⟩
    have ha' := hmem _ ha
    have hb' := hmem _ hb
    unfold dispCount at hle
    omega
  · rintro ⟨ha, hb⟩
    have ha' := hmem _ ha
    have hb' := hmem _ hb
    unfold dispCount at hle
    omega

theorem scanCols_insert_disposition_witness :
    C1ctx.compiler.isinsert = true ∧
    C1col ∈ [C1col] ∧
    dispCount (scanCols C1ctx C1mods [C1col] emptyCrudState) C1col ≤ 1 :=
  ⟨rfl, by decide,
   (scanCols_insert_disposition C1ctx C1mods [C1col] emptyCrudState C1col
      rfl (by decide) (by decide) (by decide) (by decide)).1⟩

/-! ### Claim C6: prefetch columns always appear in values -/

theorem prefetchCovered_of_empty (s : CrudState) (h : s.prefetch = []) :
    PrefetchCovered s := by
  intro c hc
  rw [h] at hc
  exact absurd hc (List.not_mem_nil c)

theorem appendParamParameter_covered (ctx : CrudCtx) (mods : RetMods)
    (d : Column) (ck : CKey) (s : CrudState) (h : PrefetchCovered s) :
    PrefetchCovered (appendParamParameter ctx mods d ck s) := by
  unfold appendParamParameter
  try dsimp only []
  repeat' split
  all_goals intro c hc
  all_goals try (dsimp only [] at hc ⊢)
  all_goals try (simp only [List.mem_append, List.mem_singleton] at hc)
  all_goals first
    | exact h c hc
    | exact (h c hc).imp (fun r hrb => ⟨List.mem_append_left _ hrb.1, hrb.2⟩)
    | (obtain hc | rfl := hc
       exacts [(h c hc).imp
           (fun r hrb => ⟨List.mem_append_left _ hrb.1, hrb.2⟩),
         ⟨_, List.mem_append_right _ (List.mem_singleton_self _), rfl⟩])

theorem appendParamInsertPkReturning_covered (ctx : CrudCtx) (d : Column)
    (s : CrudState) (h : PrefetchCovered s) :
    PrefetchCovered (appendParamInsertPkReturning ctx d s) := by
  unfold appendParamInsertPkReturning
  try dsimp only []
  repeat' split
  all_goals intro c hc
  all_goals try (dsimp only [] at hc ⊢)
  all_goals try (simp only [List.mem_append, List.mem_singleton] at hc)
  all_goals first
    | exact h c hc
    | exact (h c hc).imp (fun r hrb => ⟨List.mem_append_left _ hrb.1, hrb.2⟩)
    | (obtain hc | rfl := hc
       exacts [(h c hc).imp
           (fun r hrb => ⟨List.mem_append_left _ hrb.1, hrb.2⟩),
         ⟨_, List.mem_append_right _ (List.mem_singleton_self _), rfl⟩])

theorem appendParamInsertPk_covered (ctx : CrudCtx) (d : Column)
    (s : CrudState) (h : PrefetchCovered s) :
    PrefetchCovered (appendParamInsertPk ctx d s) := by
  unfold appendParamInsertPk
  try dsimp only []
  repeat' split
  all_goals intro c hc
  all_goals try (dsimp only [] at hc ⊢)
  all_goals first
    | exact (List.mem_append.mp hc).elim
        (fun hc' => (h c hc').imp
          (fun r hrb => ⟨List.mem_append_left _ hrb.1, hrb.2⟩))
        (fun hc' => by
          rw [List.mem_singleton] at hc'
          subst hc'
          exact ⟨_, List.mem_append_right _ (List.mem_singleton_self _), rfl⟩)
    | exact h c hc

theorem appendParamInsertHasdefault_covered (ctx : CrudCtx) (mods : RetMods)
    (d : Column) (s : CrudState) (h : PrefetchCovered s) :
    PrefetchCovered (appendParamInsertHasdefault ctx mods d s) := by
  unfold appendParamInsertHasdefault
  try dsimp only []
  repeat' split
  all_goals intro c hc
  all_goals try (dsimp only [] at hc ⊢)
  all_goals try (simp only [List.mem_append, List.mem_singleton] at hc)
  all_goals first
    | exact h c hc
    | exact (h c hc).imp (fun r hrb => ⟨List.mem_append_left _ hrb.1, hrb.2⟩)
    | (obtain hc | rfl := hc
       exacts [(h c hc).imp
           (fun r hrb => ⟨List.mem_append_left _ hrb.1, hrb.2⟩),
         ⟨_, List.mem_append_right _ (List.mem_singleton_self _), rfl⟩])

theorem appendParamUpdate_covered (mods : RetMods) (d : Column)
    (s : CrudState) (h : PrefetchCovered s) :
    PrefetchCovered (appendParamUpdate mods d s) := by
  unfold appendParamUpdate
  try dsimp only []
  repeat' split
  all_goals intro c hc
  all_goals try (dsimp only [] at hc ⊢)
  all_goals try (simp only [List.mem_append, List.mem_singleton] at hc)
  all_goals first
    | exact h c hc
    | exact (h c hc).imp (fun r hrb => ⟨List.mem_append_left _ hrb.1, hrb.2⟩)
    | (obtain hc | rfl := hc
       exacts [(h c hc).imp
           (fun r hrb => ⟨List.mem_append_left _ hrb.1, hrb.2⟩),
         ⟨_, List.mem_append_right _ (List.mem_singleton_self _), rfl⟩])

theorem scanColsStep_covered (ctx : CrudCtx) (mods : RetMods)
    (s : CrudState) (d : Column) (h : PrefetchCovered s) :
    PrefetchCovered (scanColsStep ctx mods s d) := by
  unfold scanColsStep
  try dsimp only []
  repeat' split
  all_goals first
    | exact appendParamParameter_covered ctx mods d _ s h
    | exact appendParamInsertPkReturning_covered ctx d s h
    | exact appendParamInsertPk_covered ctx d s h
    | exact appendParamInsertHasdefault_covered ctx mods d s h
    | exact appendParamUpdate_covered mods d s h
    | exact h

theorem scanCols_covered (ctx : CrudCtx) (mods : RetMods)
    (cols : List Column) (s : CrudState) (h : PrefetchCovered s) :
    PrefetchCovered (scanCols ctx mods cols s) :=
  foldl_preserves PrefetchCovered (scanColsStep ctx mods)
    (fun s d => scanColsStep_covered ctx mods s d) cols s h

theorem stmtParamStep_covered (ctx : CrudCtx) (s : CrudState)
    (kv : PKey × Value) (h : PrefetchCovered s) :
    PrefetchCovered (stmtParamStep ctx s kv) := by
  unfold stmtParamStep
  try dsimp only []
  repeat' split
  all_goals intro c hc
  all_goals try (dsimp only [] at hc ⊢)
  all_goals try (simp only [List.mem_append, List.mem_singleton] at hc)
  all_goals first
    | exact h c hc
    | exact (h c hc).imp (fun r hrb => ⟨List.mem_append_left _ hrb.1, hrb.2⟩)
    | (obtain hc | rfl := hc
       exacts [(h c hc).imp
           (fun r hrb => ⟨List.mem_append_left _ hrb.1, hrb.2⟩),
         ⟨_, List.mem_append_right _ (List.mem_singleton_self _), rfl⟩])

theorem getStmtParametersParams_covered (ctx : CrudCtx)
    (row : List (PKey × Value)) (s : CrudState) (h : PrefetchCovered s) :
    PrefetchCovered (getStmtParametersParams ctx row s) :=
  foldl_preserves PrefetchCovered (stmtParamStep ctx)
    (fun s kv => stmtParamStep_covered ctx s kv) row s h

theorem multitableFirstStep_covered (ctx : CrudCtx)
    (row : List (PKey × Value)) (s : CrudState) (d : Column)
    (h : PrefetchCovered s) :
    PrefetchCovered (multitableFirstStep ctx row s d) := by
  unfold multitableFirstStep
  try dsimp only []
  repeat' split
  all_goals intro c hc
  all_goals try (dsimp only [] at hc ⊢)
  all_goals try (simp only [List.mem_append, List.mem_singleton] at hc)
  all_goals first
    | exact h c hc
    | exact (h c hc).imp (fun r hrb => ⟨List.mem_append_left _ hrb.1, hrb.2⟩)
    | (obtain hc | rfl := hc
       exacts [(h c hc).imp
           (fun r hrb => ⟨List.mem_append_left _ hrb.1, hrb.2⟩),
         ⟨_, List.mem_append_right _ (List.mem_singleton_self _), rfl⟩])

theorem multitableSecondStep_covered (ctx : CrudCtx)
    (row : List (PKey × Value)) (s : CrudState) (d : Column)
    (h : PrefetchCovered s) :
    PrefetchCovered (multitableSecondStep ctx row s d) := by
  unfold multitableSecondStep
  try dsimp only []
  repeat' split
  all_goals intro c hc
  all_goals try (dsimp only [] at hc ⊢)
  all_goals try (simp only [List.mem_append, List.mem_singleton] at hc)
  all_goals first
    | exact h c hc
    | exact (h c hc).imp (fun r hrb => ⟨List.mem_append_left _ hrb.1, hrb.2⟩)
    | (obtain hc | rfl := hc
       exacts [(h c hc).imp
           (fun r hrb => ⟨List.mem_append_left _ hrb.1, hrb.2⟩),
         ⟨_, List.mem_append_right _ (List.mem_singleton_self _), rfl⟩])

theorem getMultitableParams_covered (ctx : CrudCtx)
    (row : List (PKey × Value)) (s : CrudState) (h : PrefetchCovered s) :
    PrefetchCovered (getMultitableParams ctx row s) := by
  unfold getMultitableParams
  try dsimp only []
  apply foldl_preserves PrefetchCovered _
    (fun s t ht => foldl_preserves PrefetchCovered _
      (fun s d hd => multitableSecondStep_covered ctx row s d hd) t.columns s ht)
  apply foldl_preserves PrefetchCovered _
    (fun s t ht => foldl_preserves PrefetchCovered _
      (fun s d hd => multitableFirstStep_covered ctx row s d hd) t.columns s ht)
  exact h

theorem crudPreScanState_covered (compiler : SqlCompiler) (stmt : Stmt) :
    PrefetchCovered (crudPreScanState compiler stmt) := by
  unfold crudPreScanState
  try dsimp only []
  have hbase : ∀ (d : List (Option CKey × Value)),
      PrefetchCovered { emptyCrudState with parameters := d } := by
    intro d
    exact prefetchCovered_of_empty _ rfl
  repeat' split
  all_goals first
    | exact getMultitableParams_covered _ _ _
        (getStmtParametersParams_covered _ _ _ (hbase _))
    | exact getStmtParametersParams_covered _ _ _ (hbase _)
    | exact getMultitableParams_covered _ _ _ (hbase _)
    | exact hbase _

theorem prefetchCoveredBy_of_covered (s : CrudState)
    (h : PrefetchCovered s) :
    prefetchCoveredBy s.prefetch s.values = true := by
  rw [prefetchCoveredBy, List.all_eq_true]
  intro c hc
  rcases h c hc with ⟨r, hr, hb⟩
  rw [List.any_eq_true]
  refine ⟨(ValTarget.ofCol c, r), hr, ?_⟩
  simp [hb]

theorem extendValues_rowZero (v : List (ValTarget × Rendered))
    (r : List (List (PKey × Value)))
    (out : List (List (ValTarget × Rendered)))
    (h : extendValuesForMultiparams v r = .ok out) : out.headD [] = v := by
  unfold extendValuesForMultiparams at h
  split at h
  · exact absurd h (by simp)
  · simp only [Except.ok.injEq] at h
    subst h
    rfl

/-- C6: every column that any classification path adds to the prefetch
collection also has a (column, rendered bound placeholder) pair in the value
list (for a multi-row statement, in row 0's list): prefetch is a subset of
the columns appearing in values. -/
theorem getCrudParams_prefetch_covered (compiler : SqlCompiler) (stmt : Stmt)
    (st : CrudState) (vals : CrudValues)
    (h : getCrudParams compiler stmt = .ok (st, vals)) :
    prefetchCoveredBy st.prefetch vals.rowZero = true := by
  unfold getCrudParams at h
  dsimp only [] at h
  split at h
  · simp only [Except.ok.injEq, Prod.mk.injEq] at h
    rcases h with ⟨h1, h2⟩
    subst h1
    rfl
  · split at h
    · exact absurd h (by simp)
    · rename_i cols hcols
      split at h
      · exact absurd h (by simp)
      · have hcov : PrefetchCovered (scanCols ⟨compiler, stmt⟩
            (getReturningModifiers compiler stmt) cols
            (crudPreScanState compiler stmt)) :=
          scanCols_covered _ _ _ _ (crudPreScanState_covered compiler stmt)
        split at h
        · rename_i rest
          split at h
          · exact absurd h (by simp)
          · rename_i rows hrows
            simp only [Except.ok.injEq, Prod.mk.injEq] at h
            rcases h with ⟨h1, h2⟩
            subst h1
            rw [← h2]
            have hz := extendValues_rowZero _ _ _ hrows
            simp only [CrudValues.rowZero]
            rw [hz]
            exact prefetchCoveredBy_of_covered _ hcov
        · simp only [Except.ok.injEq, Prod.mk.injEq] at h
          rcases h with ⟨h1, h2⟩
          subst h1
          rw [← h2]
          exact prefetchCoveredBy_of_covered _ hcov

theorem getCrudParams_prefetch_covered_witness :
    getCrudParams C6cmp C6stmt = .ok (C6state, .singleRow C6state.values) ∧
    prefetchCoveredBy C6state.prefetch
      (CrudValues.rowZero (.singleRow C6state.values)) = true :=
  ⟨by decide,
   getCrudParams_prefetch_covered C6cmp C6stmt C6state
     (.singleRow C6state.values) (by decide)⟩

/-! ### Claim C2: unconsumed-parameter detection (amended) -/

theorem foldl_preserves_mem {γ α : Type} (P : γ → Prop) (f : γ → α → γ)
    (l : List α) (h : ∀ s a, a ∈ l → P s → P (f s a)) :
    ∀ (s : γ), P s → P (l.foldl f s) := by
  induction l with
  | nil => intro s hs; exact hs
  | cons x xs ih =>
    intro s hs
    exact ih (fun s a ha hp => h s a (by simp [ha]) hp) (f s x)
      (h s x (by simp) hs)

theorem contains_iff_mem {α : Type} [BEq α] [LawfulBEq α] (a : α)
    (l : List α) : l.contains a = true ↔ a ∈ l := by
  induction l with
  | nil => simp
  | cons x xs ih => simp

theorem buildRequired_knodup (ctx : CrudCtx) (keys : List PKey)
    (sp : Option (List (PKey × Value))) : KNodup (buildRequired ctx keys sp) := by
  unfold buildRequired
  apply foldl_preserves (fun d => KNodup d)
  · intro d key hd
    dsimp only []
    split
    · exact knodup_ainsert _ _ _ hd
    · exact hd
  · simp [KNodup]

theorem buildRequired_none_key (ctx : CrudCtx) (keys : List PKey)
    (sp : Option (List (PKey × Value)))
    (hck : ∀ k ∈ keys, (columnAsKey ctx k).isSome = true) :
    alookup none (buildRequired ctx keys sp) = none := by
  unfold buildRequired
  apply foldl_preserves_mem (fun d => alookup none d = none)
  · intro d key hkey hd
    dsimp only []
    split
    · have hne : (none : Option CKey) ≠ columnAsKey ctx key := by
        intro he
        have := hck key hkey
        rw [← he] at this
        simp at this
      rw [alookup_ainsert_ne hne]
      exact hd
    · exact hd
  · rfl

theorem crudInitParams_knodup (compiler : SqlCompiler) (stmt : Stmt) :
    KNodup (crudInitParams compiler stmt) := by
  unfold crudInitParams
  split
  · simp [KNodup]
  · exact buildRequired_knodup _ _ _

theorem crudInitParams_none_key (compiler : SqlCompiler) (stmt : Stmt)
    (hck : colKeysResolvable ⟨compiler, stmt⟩ = true) :
    alookup none (crudInitParams compiler stmt) = none := by
  unfold crudInitParams
  unfold colKeysResolvable at hck
  split at hck
  · rename_i hk
    rw [hk]
    rfl
  · rename_i ks hk
    rw [hk]
    rw [List.all_eq_true] at hck
    exact buildRequired_none_key _ _ _ hck

theorem stmtParamStep_cc (ctx : CrudCtx) (s : CrudState) (kv : PKey × Value) :
    (stmtParamStep ctx s kv).check_columns = s.check_columns := by
  unfold stmtParamStep
  try dsimp only []
  repeat' split
  all_goals rfl

theorem stmtParamStep_knodup (ctx : CrudCtx) (s : CrudState)
    (kv : PKey × Value) (h : KNodup s.parameters) :
    KNodup (stmtParamStep ctx s kv).parameters := by
  unfold stmtParamStep
  try dsimp only []
  repeat' split
  all_goals first
    | exact knodup_asetdefault _ _ _ h
    | exact h

theorem stmtParamStep_none_key (ctx : CrudCtx) (s : CrudState)
    (kv : PKey × Value) (h : alookup none s.parameters = none) :
    alookup none (stmtParamStep ctx s kv).parameters = none := by
  unfold stmtParamStep
  try dsimp only []
  repeat' split
  all_goals first
    | (rw [alookup_asetdefault_ne (by intro he; exact Option.noConfusion he)]
       exact h)
    | exact h

theorem stmtParamStep_isSome_mono (ctx : CrudCtx) (s : CrudState)
    (kv : PKey × Value) (pk : Option CKey)
    (h : (alookup pk s.parameters).isSome = true) :
    (alookup pk (stmtParamStep ctx s kv).parameters).isSome = true := by
  unfold stmtParamStep
  try dsimp only []
  repeat' split
  all_goals try exact h
  rename_i colkey _
  by_cases he : pk = some colkey
  · subst he
    exact alookup_asetdefault_isSome _ _ _
  · rw [alookup_asetdefault_ne he]
    exact h

theorem getStmtParametersParams_cc (ctx : CrudCtx)
    (row : List (PKey × Value)) (s : CrudState) :
    (getStmtParametersParams ctx row s).check_columns = s.check_columns := by
  unfold getStmtParametersParams
  induction row generalizing s with
  | nil => rfl
  | cons kv rest ih =>
    rw [List.foldl_cons, ih, stmtParamStep_cc]

theorem getStmtParametersParams_knodup (ctx : CrudCtx)
    (row : List (PKey × Value)) (s : CrudState) (h : KNodup s.parameters) :
    KNodup (getStmtParametersParams ctx row s).parameters :=
  foldl_preserves (fun s => KNodup s.parameters) (stmtParamStep ctx)
    (fun s kv => stmtParamStep_knodup ctx s kv) row s h

theorem getStmtParametersParams_none_key (ctx : CrudCtx)
    (row : List (PKey × Value)) (s : CrudState)
    (h : alookup none s.parameters = none) :
    alookup none (getStmtParametersParams ctx row s).parameters = none :=
  foldl_preserves (fun s => alookup none s.parameters = none)
    (stmtParamStep ctx) (fun s kv => stmtParamStep_none_key ctx s kv) row s h

theorem getStmtParametersParams_isSome_mono (ctx : CrudCtx)
    (row : List (PKey × Value)) (s : CrudState) (pk : Option CKey)
    (h : (alookup pk s.parameters).isSome = true) :
    (alookup pk (getStmtParametersParams ctx row s).parameters).isSome =
      true :=
  foldl_preserves (fun s => (alookup pk s.parameters).isSome = true)
    (stmtParamStep ctx) (fun s kv => stmtParamStep_isSome_mono ctx s kv pk)
    row s h

theorem getStmtParametersParams_supplied (ctx : CrudCtx)
    (row : List (PKey × Value)) :
    ∀ (s : CrudState) (k : CKey),
      (∃ kv ∈ row, columnAsKey ctx kv.1 = some k) →
      (alookup (some k)
        (getStmtParametersParams ctx row s).parameters).isSome = true := by
  induction row with
  | nil =>
    intro s k h
    rcases h with ⟨kv, hm, _⟩
    exact absurd hm (List.not_mem_nil kv)
  | cons kv0 rest ih =>
    intro s k h
    unfold getStmtParametersParams at *
    rw [List.foldl_cons]
    rcases h with ⟨kv, hm, hres⟩
    rcases List.mem_cons.mp hm with he | hrest
    · subst he
      apply getStmtParametersParams_isSome_mono
      unfold stmtParamStep
      rw [hres]
      try dsimp only []
      exact alookup_asetdefault_isSome _ _ _
    · exact ih (stmtParamStep ctx s kv0) k ⟨kv, hrest, hres⟩

theorem appendParamParameter_cc (ctx : CrudCtx) (mods : RetMods)
    (d : Column) (ck : CKey) (s : CrudState) :
    (appendParamParameter ctx mods d ck s).check_columns =
      s.check_columns := by
  unfold appendParamParameter
  try dsimp only []
  repeat' split
  all_goals rfl

theorem appendParamInsertPkReturning_cc (ctx : CrudCtx) (d : Column)
    (s : CrudState) :
    (appendParamInsertPkReturning ctx d s).check_columns =
      s.check_columns := by
  unfold appendParamInsertPkReturning
  try dsimp only []
  repeat' split
  all_goals rfl

theorem appendParamInsertPk_cc (ctx : CrudCtx) (d : Column) (s : CrudState) :
    (appendParamInsertPk ctx d s).check_columns = s.check_columns := by
  unfold appendParamInsertPk
  try dsimp only []
  repeat' split
  all_goals rfl

theorem appendParamInsertHasdefault_cc (ctx : CrudCtx) (mods : RetMods)
    (d : Column) (s : CrudState) :
    (appendParamInsertHasdefault ctx mods d s).check_columns =
      s.check_columns := by
  unfold appendParamInsertHasdefault
  try dsimp only []
  repeat' split
  all_goals rfl

theorem appendParamUpdate_cc (mods : RetMods) (d : Column) (s : CrudState) :
    (appendParamUpdate mods d s).check_columns = s.check_columns := by
  unfold appendParamUpdate
  try dsimp only []
  repeat' split
  all_goals rfl

theorem scanColsStep_cc (ctx : CrudCtx) (mods : RetMods) (s : CrudState)
    (d : Column) :
    (scanColsStep ctx mods s d).check_columns = s.check_columns := by
  unfold scanColsStep
  try dsimp only []
  repeat' split
  all_goals first
    | rfl
    | exact appendParamParameter_cc ctx mods d _ s
    | exact appendParamInsertPkReturning_cc ctx d s
    | exact appendParamInsertPk_cc ctx d s
    | exact appendParamInsertHasdefault_cc ctx mods d s
    | exact appendParamUpdate_cc mods d s

theorem scanCols_cc (ctx : CrudCtx) (mods : RetMods) (cols : List Column) :
    ∀ (s : CrudState),
      (scanCols ctx mods cols s).check_columns = s.check_columns := by
  induction cols with
  | nil => intro s; rfl
  | cons d ds ih =>
    intro s
    unfold scanCols at *
    rw [List.foldl_cons, ih, scanColsStep_cc]

theorem appendParamParameter_params_cases (ctx : CrudCtx) (mods : RetMods)
    (d : Column) (ck : CKey) (s : CrudState) :
    (appendParamParameter ctx mods d ck s).parameters = s.parameters ∨
    (appendParamParameter ctx mods d ck s).parameters =
      aremove (some ck) s.parameters := by
  unfold appendParamParameter
  try dsimp only []
  repeat' split
  all_goals first
    | (left; rfl)
    | (right; rfl)

theorem appendParamParameter_params_eq (ctx : CrudCtx) (mods : RetMods)
    (d : Column) (ck : CKey) (s : CrudState) (v : Value)
    (hv : alookup (some ck) s.parameters = some v) :
    (appendParamParameter ctx mods d ck s).parameters =
      aremove (some ck) s.parameters := by
  unfold appendParamParameter
  rw [hv]
  try dsimp only []
  repeat' split
  all_goals rfl

theorem scanColsStep_knodup (ctx : CrudCtx) (mods : RetMods) (s : CrudState)
    (d : Column) (h : KNodup s.parameters) :
    KNodup (scanColsStep ctx mods s d).parameters := by
  unfold scanColsStep
  try dsimp only []
  repeat' split
  all_goals first
    | exact h
    | (rw [appendParamInsertPkReturning_params]; exact h)
    | (rw [appendParamInsertPk_params]; exact h)
    | (rw [appendParamInsertHasdefault_params]; exact h)
    | (rw [appendParamUpdate_params]; exact h)
    | (rcases appendParamParameter_params_cases ctx mods d _ s with he | he
       exacts [by rw [he]; exact h,
         by rw [he]; exact knodup_aremove _ _ h])

theorem scanColsStep_params_of_lookup_none (ctx : CrudCtx) (mods : RetMods)
    (s : CrudState) (d : Column)
    (h : alookup (some (getattrColKey ctx d)) s.parameters = none) :
    (scanColsStep ctx mods s d).parameters = s.parameters := by
  unfold scanColsStep
  try dsimp only []
  have hguard : ((alookup (some (getattrColKey ctx d)) s.parameters).isSome &&
      !(s.check_columns.contains (getattrColKey ctx d))) = false := by
    rw [h]
    rfl
  rw [hguard]
  rw [if_neg (by simp : ¬ (false = true))]
  repeat' split
  all_goals first
    | rfl
    | exact appendParamInsertPkReturning_params ctx d s
    | exact appendParamInsertPk_params ctx d s
    | exact appendParamInsertHasdefault_params ctx mods d s
    | exact appendParamUpdate_params mods d s

theorem scanColsStep_lookup_after (ctx : CrudCtx) (mods : RetMods)
    (s : CrudState) (d : Column) (k : CKey)
    (hcc : s.check_columns = []) (hnd : KNodup s.parameters) :
    (alookup (some k) (scanColsStep ctx mods s d).parameters = none ↔
      (alookup (some k) s.parameters = none ∨ getattrColKey ctx d = k)) := by
  cases hl : alookup (some (getattrColKey ctx d)) s.parameters with
  | none =>
    rw [scanColsStep_params_of_lookup_none ctx mods s d hl]
    constructor
    · exact Or.inl
    · rintro (h1 | h1)
      · exact h1
      · rw [← h1]
        exact hl
  | some v =>
    have hguard : ((alookup (some (getattrColKey ctx d))
        s.parameters).isSome &&
        !(s.check_columns.contains (getattrColKey ctx d))) = true := by
      rw [hl, hcc]
      rfl
    have hstep : (scanColsStep ctx mods s d).parameters =
        aremove (some (getattrColKey ctx d)) s.parameters := by
      unfold scanColsStep
      try dsimp only []
      rw [hguard]
      rw [if_pos rfl]
      exact appendParamParameter_params_eq ctx mods d _ s v hl
    rw [hstep]
    by_cases hk : k = getattrColKey ctx d
    · subst hk
      rw [alookup_aremove_self _ _ hnd]
      simp
    · have hne : (some k : Option CKey) ≠ some (getattrColKey ctx d) := by
        intro he
        exact hk (Option.some.injEq _ _ ▸ he)
      rw [alookup_aremove_ne hne]
      have hdk : ¬ (getattrColKey ctx d = k) := fun he => hk he.symm
      simp [hdk]

theorem scanCols_knodup (ctx : CrudCtx) (mods : RetMods) (cols : List Column)
    (s : CrudState) (h : KNodup s.parameters) :
    KNodup (scanCols ctx mods cols s).parameters :=
  foldl_preserves (fun s => KNodup s.parameters) (scanColsStep ctx mods)
    (fun s d => scanColsStep_knodup ctx mods s d) cols s h

theorem scanCols_none_key (ctx : CrudCtx) (mods : RetMods)
    (cols : List Column) (s : CrudState) {k : Option CKey}
    (h : alookup k s.parameters = none) :
    alookup k (scanCols ctx mods cols s).parameters = none :=
  foldl_preserves (fun s => alookup k s.parameters = none)
    (scanColsStep ctx mods)
    (fun s d hs => scanColsStep_params_none ctx mods s d hs) cols s h

theorem scanCols_lookup_after (ctx : CrudCtx) (mods : RetMods)
    (cols : List Column) :
    ∀ (s : CrudState) (k : CKey), s.check_columns = [] →
      KNodup s.parameters →
      (alookup (some k) (scanCols ctx mods cols s).parameters = none ↔
        (alookup (some k) s.parameters = none ∨
         ∃ c, c ∈ cols ∧ getattrColKey ctx c = k)) := by
  induction cols with
  | nil =>
    intro s k hcc hnd
    unfold scanCols
    simp
  | cons d ds ih =>
    intro s k hcc hnd
    have hcc' : (scanColsStep ctx mods s d).check_columns = [] := by
      rw [scanColsStep_cc]
      exact hcc
    have hnd' := scanColsStep_knodup ctx mods s d hnd
    have hfold : scanCols ctx mods (d :: ds) s =
        scanCols ctx mods ds (scanColsStep ctx mods s d) := by
      unfold scanCols
      rw [List.foldl_cons]
    rw [hfold, ih (scanColsStep ctx mods s d) k hcc' hnd',
      scanColsStep_lookup_after ctx mods s d k hcc hnd]
    simp only [List.mem_cons]
    constructor
    · rintro ((h1 | h1) | ⟨c, hcm, hck⟩)
      · exact Or.inl h1
      · exact Or.inr ⟨d, Or.inl rfl, h1⟩
      · exact Or.inr ⟨c, Or.inr hcm, hck⟩
    · rintro (h1 | ⟨c, (rfl | hcm), hck⟩)
      · exact Or.inl (Or.inl h1)
      · exact Or.inl (Or.inr hck)
      · exact Or.inr ⟨c, hcm, hck⟩

theorem suppliedResolved_mem (ctx : CrudCtx) (row : List (PKey × Value))
    (k : CKey) :
    k ∈ suppliedResolved ctx row ↔
      ∃ kv, kv ∈ row ∧ columnAsKey ctx kv.1 = some k := by
  unfold suppliedResolved
  simp [List.mem_filterMap]

theorem crudCheck_char (compiler : SqlCompiler) (stmt : Stmt)
    (row : List (PKey × Value)) (s4 : CrudState) (W : List CKey)
    (hrow : stmt.parameters = StmtParams.single row)
    (hcc4 : s4.check_columns = [])
    (hnone4 : alookup none s4.parameters = none)
    (hW : ∀ k : CKey,
      ((alookup (some k) s4.parameters).isSome = true ∧
        (some k) ∈ row.map (fun kv => columnAsKey ⟨compiler, stmt⟩ kv.1)) ↔
      k ∈ W) :
    (W = [] → crudCheck ⟨compiler, stmt⟩ stmt s4 = none) ∧
    (W ≠ [] → ∃ ks, crudCheck ⟨compiler, stmt⟩ stmt s4 = some ks ∧
      (∀ k : CKey, (some k ∈ ks ↔ k ∈ W)) ∧ none ∉ ks) := by
  have htru : crudTruthy stmt = !row.isEmpty := by
    unfold crudTruthy
    rw [hrow]
    rfl
  have hres : resolvedParamItems ⟨compiler, stmt⟩ stmt.parameters =
      row.map (fun kv => columnAsKey ⟨compiler, stmt⟩ kv.1) := by
    rw [hrow]
    rfl
  set ks := (s4.parameters.map Prod.fst).filter (fun pk =>
    (resolvedParamItems ⟨compiler, stmt⟩ stmt.parameters).contains pk &&
    (match pk with
     | some k => !s4.check_columns.contains k
     | none => true)) with hks
  have h_ks : ∀ pk, pk ∈ ks ↔ ∃ k : CKey, pk = some k ∧ k ∈ W := by
    intro pk
    rw [hks, List.mem_filter]
    constructor
    · rintro ⟨hmem, hpred⟩
      cases pk with
      | none =>
        exfalso
        rw [mem_keys_iff, hnone4] at hmem
        simp at hmem
      | some k =>
        refine ⟨k, rfl, ?_⟩
        rw [Bool.and_eq_true] at hpred
        have hmap : (some k) ∈
            row.map (fun kv => columnAsKey ⟨compiler, stmt⟩ kv.1) := by
          rw [← hres, ← contains_iff_mem]
          exact hpred.1
        rw [mem_keys_iff] at hmem
        exact (hW k).mp ⟨hmem, hmap⟩
    · rintro ⟨k, rfl, hkW⟩
      rcases (hW k).mpr hkW with ⟨hsome, hmap⟩
      refine ⟨?_, ?_⟩
      · rw [mem_keys_iff]
        exact hsome
      · rw [Bool.and_eq_true]
        refine ⟨?_, ?_⟩
        · rw [contains_iff_mem, hres]
          exact hmap
        · rw [hcc4]
          rfl
  constructor
  · intro hWnil
    have hks_nil : ks = [] := by
      rw [List.eq_nil_iff_forall_not_mem]
      intro pk hpk
      rcases (h_ks pk).mp hpk with ⟨k, _, hkW⟩
      rw [hWnil] at hkW
      exact absurd hkW (List.not_mem_nil k)
    unfold crudCheck
    by_cases hguard : (!s4.parameters.isEmpty && crudTruthy stmt) = true
    · rw [if_pos hguard]
      try dsimp only []
      rw [← hks, hks_nil]
      simp
    · rw [if_neg hguard]
  · intro hWne
    obtain ⟨k0, hk0⟩ := List.exists_mem_of_ne_nil W hWne
    have hk0ks : some k0 ∈ ks := (h_ks _).mpr ⟨k0, rfl, hk0⟩
    have hne4 : s4.parameters.isEmpty = false := by
      have hmem := (List.mem_filter.mp (hks ▸ hk0ks)).1
      rw [mem_keys_iff] at hmem
      exact alookup_empty_of_isSome hmem
    have hrowne : row.isEmpty = false := by
      rcases (hW k0).mpr hk0 with ⟨_, hmap⟩
      cases row with
      | nil => exact absurd hmap (by simp)
      | cons a l => rfl
    have hguard : (!s4.parameters.isEmpty && crudTruthy stmt) = true := by
      rw [hne4, htru, hrowne]
      rfl
    have hks_ne : ks.isEmpty = false := by
      cases hkse : ks with
      | nil =>
        rw [hkse] at hk0ks
        exact absurd hk0ks (List.not_mem_nil _)
      | cons a l => rfl
    refine ⟨ks, ?_, ?_, ?_⟩
    · unfold crudCheck
      rw [if_pos hguard]
      try dsimp only []
      rw [← hks, hks_ne]
      rfl
    · intro k
      rw [h_ks]
      constructor
      · rintro ⟨k', he, hk'⟩
        rw [Option.some.injEq] at he
        rw [he]
        exact hk'
      · intro hk
        exact ⟨k, rfl, hk⟩
    · intro hn
      rcases (h_ks none).mp hn with ⟨k, he, _⟩
      exact Option.noConfusion he

/-- C2 (amended): for a single-row statement over a single target table
(no extra FROM tables) whose execute-time keys all resolve, classification
raises the batched CompileError exactly when some supplied parameter key
resolves to a canonical key that is matched by no scanned target-table
column; the error is raised once, after the full scan, and names exactly
those keys.  (The original claim fails for multi-table UPDATE: a key
resolving to an extra-table column matches no target-table column yet is
consumed by the multi-table path and raises nothing.) -/
theorem getCrudParams_unconsumed (compiler : SqlCompiler) (stmt : Stmt)
    (row : List (PKey × Value)) (cs : List Column)
    (hrow : stmt.parameters = StmtParams.single row)
    (hextra : stmt.extra_froms = [])
    (hck : colKeysResolvable ⟨compiler, stmt⟩ = true)
    (hcols : colsForScan ⟨compiler, stmt⟩ = .ok cs) :
    (unconsumedSupplied ⟨compiler, stmt⟩ row cs = [] →
      (getCrudParams compiler stmt).isOk = true) ∧
    (unconsumedSupplied ⟨compiler, stmt⟩ row cs ≠ [] →
      c2ErrWith (getCrudParams compiler stmt)
        (unconsumedSupplied ⟨compiler, stmt⟩ row cs) = true) := by
  have hpre : crudPreScanState compiler stmt =
      getStmtParametersParams ⟨compiler, stmt⟩ row
        { emptyCrudState with parameters := crudInitParams compiler stmt } := by
    unfold crudPreScanState
    try dsimp only []
    rw [hrow, hextra]
    simp only [List.isEmpty_nil, Bool.not_true, Bool.and_false, Bool.false_and]
    rw [if_neg (by simp : ¬ (false = true))]
    rfl
  have h_cc_pre : (crudPreScanState compiler stmt).check_columns = [] := by
    rw [hpre, getStmtParametersParams_cc]
    rfl
  have h_nd_pre : KNodup (crudPreScanState compiler stmt).parameters := by
    rw [hpre]
    exact getStmtParametersParams_knodup _ _ _
      (crudInitParams_knodup compiler stmt)
  have h_none_pre :
      alookup none (crudPreScanState compiler stmt).parameters = none := by
    rw [hpre]
    exact getStmtParametersParams_none_key _ _ _
      (crudInitParams_none_key compiler stmt hck)
  have h_sup : ∀ k : CKey, k ∈ suppliedResolved ⟨compiler, stmt⟩ row →
      (alookup (some k)
        (crudPreScanState compiler stmt).parameters).isSome = true := by
    intro k hk
    rw [hpre]
    rcases (suppliedResolved_mem _ _ _).mp hk with ⟨kv, hkv, hr⟩
    exact getStmtParametersParams_supplied _ row _ k ⟨kv, hkv, hr⟩
  set s4 := scanCols ⟨compiler, stmt⟩ (getReturningModifiers compiler stmt)
    cs (crudPreScanState compiler stmt) with hs4def
  set U := unconsumedSupplied ⟨compiler, stmt⟩ row cs with hUdef
  have h_cc4 : s4.check_columns = [] := by
    rw [hs4def, scanCols_cc]
    exact h_cc_pre
  have h_none4 : alookup none s4.parameters = none := by
    rw [hs4def]
    exact scanCols_none_key _ _ _ _ h_none_pre
  have h_char : ∀ k : CKey, alookup (some k) s4.parameters = none ↔
      (alookup (some k) (crudPreScanState compiler stmt).parameters = none ∨
       ∃ c, c ∈ cs ∧ getattrColKey ⟨compiler, stmt⟩ c = k) := by
    intro k
    rw [hs4def]
    exact scanCols_lookup_after _ _ cs _ k h_cc_pre h_nd_pre
  have hUmem : ∀ k : CKey, k ∈ U ↔
      (k ∈ suppliedResolved ⟨compiler, stmt⟩ row ∧
       ∀ c, c ∈ cs → getattrColKey ⟨compiler, stmt⟩ c ≠ k) := by
    intro k
    rw [hUdef]
    unfold unconsumedSupplied
    rw [List.mem_filter]
    simp [List.all_eq_true]
  have hW : ∀ k : CKey,
      ((alookup (some k) s4.parameters).isSome = true ∧
        (some k) ∈ row.map
          (fun kv => columnAsKey ⟨compiler, stmt⟩ kv.1)) ↔ k ∈ U := by
    intro k
    have hmap : (some k) ∈ row.map
        (fun kv => columnAsKey ⟨compiler, stmt⟩ kv.1) ↔
        k ∈ suppliedResolved ⟨compiler, stmt⟩ row := by
      rw [suppliedResolved_mem]
      simp [List.mem_map]
    constructor
    · rintro ⟨hsome, hm⟩
      have hSR := hmap.mp hm
      refine (hUmem k).mpr ⟨hSR, ?_⟩
      intro c hc he
      have hnone : alookup (some k) s4.parameters = none :=
        (h_char k).mpr (Or.inr ⟨c, hc, he⟩)
      rw [hnone] at hsome
      simp at hsome
    · intro hkU
      rcases (hUmem k).mp hkU with ⟨hSR, hall⟩
      refine ⟨?_, hmap.mpr hSR⟩
      cases hcase : alookup (some k) s4.parameters with
      | some v => rfl
      | none =>
        rcases (h_char k).mp hcase with h1 | ⟨c, hc, he⟩
        · have hs := h_sup k hSR
          rw [h1] at hs
          simp at hs
        · exact absurd he (hall c hc)
  have hCC := crudCheck_char compiler stmt row s4 U hrow h_cc4 h_none4 hW
  have hget : getCrudParams compiler stmt =
      (match crudCheck ⟨compiler, stmt⟩ stmt s4 with
       | some check => Except.error (CrudErr.compileError check)
       | none => Except.ok (s4, CrudValues.singleRow s4.values)) := by
    unfold getCrudParams
    try dsimp only []
    rw [hrow]
    simp only [StmtParams.isNoParams, Bool.and_false]
    rw [if_neg (by simp : ¬ (false = true))]
    rw [hcols]
    try dsimp only []
    try rw [← hs4def]
    try (cases crudCheck ⟨compiler, stmt⟩ stmt s4 <;> rfl)
  constructor
  · intro hU0
    rw [hget, hCC.1 hU0]
    rfl
  · intro hUne
    rcases hCC.2 hUne with ⟨ks, hcheck, hiff, hnone⟩
    rw [hget, hcheck]
    unfold c2ErrWith
    try dsimp only []
    rw [Bool.and_eq_true]
    constructor
    · rw [List.all_eq_true]
      intro pk hpk
      cases pk with
      | none => exact absurd hpk hnone
      | some k =>
        have hkU := (hiff k).mp hpk
        exact (contains_iff_mem _ _).mpr hkU
    · rw [List.all_eq_true]
      intro k hk
      exact (contains_iff_mem _ _).mpr ((hiff k).mpr hk)

theorem getCrudParams_unconsumed_witness :
    C2wstmt.parameters =
      StmtParams.single [(PKey.str "zzz", Value.lit 1)] ∧
    unconsumedSupplied ⟨C2wcmp, C2wstmt⟩ [(PKey.str "zzz", Value.lit 1)]
      C2wstmt.table.columns ≠ [] ∧
    c2ErrWith (getCrudParams C2wcmp C2wstmt)
      (unconsumedSupplied ⟨C2wcmp, C2wstmt⟩ [(PKey.str "zzz", Value.lit 1)]
        C2wstmt.table.columns) = true :=
  ⟨rfl, by decide,
   (getCrudParams_unconsumed C2wcmp C2wstmt
      [(PKey.str "zzz", Value.lit 1)] C2wstmt.table.columns
      rfl rfl (by decide) (by decide)).2 (by decide)⟩

end SA
